import Mathlib

/-!
# AES-128 SystemC model: a shallow embedding

The definitions follow `Final_Project/systemc/include/*.h`.  A `uint8_t` is a
`Fin 256`; an `AesBlock` (`std::array<uint8_t, 16>`) is a record of sixteen
bytes read and written through `get` and `set`, so that the loops of the
source can be written as folds over their index ranges.

The three modules of `individual_project_3` (an arithmetic-logic unit, a
Fibonacci thread and a shift register) follow the AES definitions: an `int`
is an `Int` wrapped to 32 bits, an `sc_uint<4>` a `Fin 16`, and a thread is
given by what it does between two calls of `wait`.
-/

namespace Aes

/-! ## aes_types.h -/

/-- The type `uint8_t`: every arithmetic result is reduced modulo `2^8`. -/
abbrev Byte := Fin 256

/-- Constant `AES_BLOCK_SIZE` (128 bits = 16 bytes). -/
def AES_BLOCK_SIZE : Nat := 16

/-- Constant `AES_KEY_SIZE` (128 bits = 16 bytes). -/
def AES_KEY_SIZE : Nat := 16

/-- Constant `AES_NUM_ROUNDS` (for AES-128). -/
def AES_NUM_ROUNDS : Nat := 10

/-- Enumeration `AesOperation`. -/
inductive AesOperation where
  | ENCRYPT
  | DECRYPT
deriving DecidableEq, Repr

/-- Enumeration `AesMode`. -/
inductive AesMode where
  | PIPELINED
  | NON_PIPELINED
deriving DecidableEq, Repr

/-- Struct `AesBlock`: the member `std::array<uint8_t, AES_BLOCK_SIZE> data`,
one field per array cell. -/
structure AesBlock where
  d0 : Byte
  d1 : Byte
  d2 : Byte
  d3 : Byte
  d4 : Byte
  d5 : Byte
  d6 : Byte
  d7 : Byte
  d8 : Byte
  d9 : Byte
  d10 : Byte
  d11 : Byte
  d12 : Byte
  d13 : Byte
  d14 : Byte
  d15 : Byte
deriving DecidableEq, Repr

namespace AesBlock

/-- The default constructor `AesBlock()`: `data.fill(0)`. -/
def zero : AesBlock :=
  ⟨0, 0, 0, 0, 0, 0, 0, 0, 0, 0, 0, 0, 0, 0, 0, 0⟩

/-- The read `data[i]`.  Every index the source uses lies in `0..15`; the last
case is never reached. -/
def get (b : AesBlock) (i : Nat) : Byte :=
  match i with
  | 0 => b.d0
  | 1 => b.d1
  | 2 => b.d2
  | 3 => b.d3
  | 4 => b.d4
  | 5 => b.d5
  | 6 => b.d6
  | 7 => b.d7
  | 8 => b.d8
  | 9 => b.d9
  | 10 => b.d10
  | 11 => b.d11
  | 12 => b.d12
  | 13 => b.d13
  | 14 => b.d14
  | 15 => b.d15
  | _ => 0

/-- The write `data[i] = v`.  Every index the source uses lies in `0..15`; the
last case is never reached. -/
def set (b : AesBlock) (i : Nat) (v : Byte) : AesBlock :=
  match b, i with
  | ⟨_, a1, a2, a3, a4, a5, a6, a7, a8, a9, a10, a11, a12, a13, a14, a15⟩, 0 =>
    ⟨v, a1, a2, a3, a4, a5, a6, a7, a8, a9, a10, a11, a12, a13, a14, a15⟩
  | ⟨a0, _, a2, a3, a4, a5, a6, a7, a8, a9, a10, a11, a12, a13, a14, a15⟩, 1 =>
    ⟨a0, v, a2, a3, a4, a5, a6, a7, a8, a9, a10, a11, a12, a13, a14, a15⟩
  | ⟨a0, a1, _, a3, a4, a5, a6, a7, a8, a9, a10, a11, a12, a13, a14, a15⟩, 2 =>
    ⟨a0, a1, v, a3, a4, a5, a6, a7, a8, a9, a10, a11, a12, a13, a14, a15⟩
  | ⟨a0, a1, a2, _, a4, a5, a6, a7, a8, a9, a10, a11, a12, a13, a14, a15⟩, 3 =>
    ⟨a0, a1, a2, v, a4, a5, a6, a7, a8, a9, a10, a11, a12, a13, a14, a15⟩
  | ⟨a0, a1, a2, a3, _, a5, a6, a7, a8, a9, a10, a11, a12, a13, a14, a15⟩, 4 =>
    ⟨a0, a1, a2, a3, v, a5, a6, a7, a8, a9, a10, a11, a12, a13, a14, a15⟩
  | ⟨a0, a1, a2, a3, a4, _, a6, a7, a8, a9, a10, a11, a12, a13, a14, a15⟩, 5 =>
    ⟨a0, a1, a2, a3, a4, v, a6, a7, a8, a9, a10, a11, a12, a13, a14, a15⟩
  | ⟨a0, a1, a2, a3, a4, a5, _, a7, a8, a9, a10, a11, a12, a13, a14, a15⟩, 6 =>
    ⟨a0, a1, a2, a3, a4, a5, v, a7, a8, a9, a10, a11, a12, a13, a14, a15⟩
  | ⟨a0, a1, a2, a3, a4, a5, a6, _, a8, a9, a10, a11, a12, a13, a14, a15⟩, 7 =>
    ⟨a0, a1, a2, a3, a4, a5, a6, v, a8, a9, a10, a11, a12, a13, a14, a15⟩
  | ⟨a0, a1, a2, a3, a4, a5, a6, a7, _, a9, a10, a11, a12, a13, a14, a15⟩, 8 =>
    ⟨a0, a1, a2, a3, a4, a5, a6, a7, v, a9, a10, a11, a12, a13, a14, a15⟩
  | ⟨a0, a1, a2, a3, a4, a5, a6, a7, a8, _, a10, a11, a12, a13, a14, a15⟩, 9 =>
    ⟨a0, a1, a2, a3, a4, a5, a6, a7, a8, v, a10, a11, a12, a13, a14, a15⟩
  | ⟨a0, a1, a2, a3, a4, a5, a6, a7, a8, a9, _, a11, a12, a13, a14, a15⟩, 10 =>
    ⟨a0, a1, a2, a3, a4, a5, a6, a7, a8, a9, v, a11, a12, a13, a14, a15⟩
  | ⟨a0, a1, a2, a3, a4, a5, a6, a7, a8, a9, a10, _, a12, a13, a14, a15⟩, 11 =>
    ⟨a0, a1, a2, a3, a4, a5, a6, a7, a8, a9, a10, v, a12, a13, a14, a15⟩
  | ⟨a0, a1, a2, a3, a4, a5, a6, a7, a8, a9, a10, a11, _, a13, a14, a15⟩, 12 =>
    ⟨a0, a1, a2, a3, a4, a5, a6, a7, a8, a9, a10, a11, v, a13, a14, a15⟩
  | ⟨a0, a1, a2, a3, a4, a5, a6, a7, a8, a9, a10, a11, a12, _, a14, a15⟩, 13 =>
    ⟨a0, a1, a2, a3, a4, a5, a6, a7, a8, a9, a10, a11, a12, v, a14, a15⟩
  | ⟨a0, a1, a2, a3, a4, a5, a6, a7, a8, a9, a10, a11, a12, a13, _, a15⟩, 14 =>
    ⟨a0, a1, a2, a3, a4, a5, a6, a7, a8, a9, a10, a11, a12, a13, v, a15⟩
  | ⟨a0, a1, a2, a3, a4, a5, a6, a7, a8, a9, a10, a11, a12, a13, a14, _⟩, 15 =>
    ⟨a0, a1, a2, a3, a4, a5, a6, a7, a8, a9, a10, a11, a12, a13, a14, v⟩
  | b, _ => b

/-- The constructor `AesBlock(const uint8_t* raw_data)`, for a buffer holding
at least sixteen bytes: `data[i] = raw_data[i]` for `i` in `0..15`. -/
def ofFn (raw_data : Nat → Byte) : AesBlock :=
  (List.range AES_BLOCK_SIZE).foldl (fun result i => result.set i (raw_data i)) zero

/-- The member `operator^` (AddRoundKey): `result.data[i] = data[i] ^ other.data[i]`
for `i` in `0..15`. -/
def xor (b other : AesBlock) : AesBlock :=
  (List.range AES_BLOCK_SIZE).foldl
    (fun result i => result.set i (b.get i ^^^ other.get i)) zero

end AesBlock

/-- Struct `AesKey`: the member `std::array<uint8_t, AES_KEY_SIZE> key`, sixteen
bytes laid out as in `AesBlock`. -/
structure AesKey where
  key : AesBlock
deriving DecidableEq, Repr

/-- Struct `AesRoundKeys`: the member
`std::array<AesBlock, AES_NUM_ROUNDS + 1> round_keys`, one field per array cell. -/
structure AesRoundKeys where
  r0 : AesBlock
  r1 : AesBlock
  r2 : AesBlock
  r3 : AesBlock
  r4 : AesBlock
  r5 : AesBlock
  r6 : AesBlock
  r7 : AesBlock
  r8 : AesBlock
  r9 : AesBlock
  r10 : AesBlock
deriving DecidableEq, Repr

namespace AesRoundKeys

/-- The read `round_keys[i]`.  Every index the source uses lies in `0..10`; the
last case is never reached. -/
def get (rk : AesRoundKeys) (i : Nat) : AesBlock :=
  match i with
  | 0 => rk.r0
  | 1 => rk.r1
  | 2 => rk.r2
  | 3 => rk.r3
  | 4 => rk.r4
  | 5 => rk.r5
  | 6 => rk.r6
  | 7 => rk.r7
  | 8 => rk.r8
  | 9 => rk.r9
  | 10 => rk.r10
  | _ => AesBlock.zero

/-- The write `round_keys[i] = v`.  Every index the source uses lies in `0..10`;
the last case is never reached. -/
def set (rk : AesRoundKeys) (i : Nat) (v : AesBlock) : AesRoundKeys :=
  match rk, i with
  | ⟨_, k1, k2, k3, k4, k5, k6, k7, k8, k9, k10⟩, 0 =>
    ⟨v, k1, k2, k3, k4, k5, k6, k7, k8, k9, k10⟩
  | ⟨k0, _, k2, k3, k4, k5, k6, k7, k8, k9, k10⟩, 1 =>
    ⟨k0, v, k2, k3, k4, k5, k6, k7, k8, k9, k10⟩
  | ⟨k0, k1, _, k3, k4, k5, k6, k7, k8, k9, k10⟩, 2 =>
    ⟨k0, k1, v, k3, k4, k5, k6, k7, k8, k9, k10⟩
  | ⟨k0, k1, k2, _, k4, k5, k6, k7, k8, k9, k10⟩, 3 =>
    ⟨k0, k1, k2, v, k4, k5, k6, k7, k8, k9, k10⟩
  | ⟨k0, k1, k2, k3, _, k5, k6, k7, k8, k9, k10⟩, 4 =>
    ⟨k0, k1, k2, k3, v, k5, k6, k7, k8, k9, k10⟩
  | ⟨k0, k1, k2, k3, k4, _, k6, k7, k8, k9, k10⟩, 5 =>
    ⟨k0, k1, k2, k3, k4, v, k6, k7, k8, k9, k10⟩
  | ⟨k0, k1, k2, k3, k4, k5, _, k7, k8, k9, k10⟩, 6 =>
    ⟨k0, k1, k2, k3, k4, k5, v, k7, k8, k9, k10⟩
  | ⟨k0, k1, k2, k3, k4, k5, k6, _, k8, k9, k10⟩, 7 =>
    ⟨k0, k1, k2, k3, k4, k5, k6, v, k8, k9, k10⟩
  | ⟨k0, k1, k2, k3, k4, k5, k6, k7, _, k9, k10⟩, 8 =>
    ⟨k0, k1, k2, k3, k4, k5, k6, k7, v, k9, k10⟩
  | ⟨k0, k1, k2, k3, k4, k5, k6, k7, k8, _, k10⟩, 9 =>
    ⟨k0, k1, k2, k3, k4, k5, k6, k7, k8, v, k10⟩
  | ⟨k0, k1, k2, k3, k4, k5, k6, k7, k8, k9, _⟩, 10 =>
    ⟨k0, k1, k2, k3, k4, k5, k6, k7, k8, k9, v⟩
  | rk, _ => rk

end AesRoundKeys

/-! ## aes_shift_rows.h -/

/-- Method `AesShiftRows::shift_rows`. -/
def shift_rows (block : AesBlock) : AesBlock :=
  let result := AesBlock.zero
  -- Row 0: No shift
  let result := result.set 0 (block.get 0)
  let result := result.set 4 (block.get 4)
  let result := result.set 8 (block.get 8)
  let result := result.set 12 (block.get 12)
  -- Row 1: Shift left by 1
  let result := result.set 1 (block.get 5)
  let result := result.set 5 (block.get 9)
  let result := result.set 9 (block.get 13)
  let result := result.set 13 (block.get 1)
  -- Row 2: Shift left by 2
  let result := result.set 2 (block.get 10)
  let result := result.set 6 (block.get 14)
  let result := result.set 10 (block.get 2)
  let result := result.set 14 (block.get 6)
  -- Row 3: Shift left by 3
  let result := result.set 3 (block.get 15)
  let result := result.set 7 (block.get 3)
  let result := result.set 11 (block.get 7)
  let result := result.set 15 (block.get 11)
  result

/-- Method `AesShiftRows::inv_shift_rows`. -/
def inv_shift_rows (block : AesBlock) : AesBlock :=
  let result := AesBlock.zero
  -- Row 0: No shift
  let result := result.set 0 (block.get 0)
  let result := result.set 4 (block.get 4)
  let result := result.set 8 (block.get 8)
  let result := result.set 12 (block.get 12)
  -- Row 1: Shift right by 1
  let result := result.set 1 (block.get 13)
  let result := result.set 5 (block.get 1)
  let result := result.set 9 (block.get 5)
  let result := result.set 13 (block.get 9)
  -- Row 2: Shift right by 2
  let result := result.set 2 (block.get 10)
  let result := result.set 6 (block.get 14)
  let result := result.set 10 (block.get 2)
  let result := result.set 14 (block.get 6)
  -- Row 3: Shift right by 3
  let result := result.set 3 (block.get 7)
  let result := result.set 7 (block.get 11)
  let result := result.set 11 (block.get 15)
  let result := result.set 15 (block.get 3)
  result

/-! ## aes_mix_columns.h -/

/-- Method `AesMixColumns::gmul2`: `result = a << 1` truncated to eight bits,
then `result ^= 0x1B` when `a & 0x80` is non-zero. -/
def gmul2 (a : Byte) : Byte :=
  let result : Byte := Fin.ofNat ((a.val <<< 1) % 256)
  if a.val &&& 0x80 ≠ 0 then result ^^^ 0x1B else result

/-- Method `AesMixColumns::gmul3`. -/
def gmul3 (a : Byte) : Byte :=
  gmul2 a ^^^ a

/-- Method `AesMixColumns::gmul9`. -/
def gmul9 (a : Byte) : Byte :=
  gmul2 (gmul2 (gmul2 a)) ^^^ a

/-- Method `AesMixColumns::gmul11`. -/
def gmul11 (a : Byte) : Byte :=
  gmul2 (gmul2 (gmul2 a) ^^^ a) ^^^ a

/-- Method `AesMixColumns::gmul13`. -/
def gmul13 (a : Byte) : Byte :=
  gmul2 (gmul2 (gmul2 a ^^^ a)) ^^^ a

/-- Method `AesMixColumns::gmul14`. -/
def gmul14 (a : Byte) : Byte :=
  gmul2 (gmul2 (gmul2 a ^^^ a) ^^^ a)

/-- Method `AesMixColumns::mix_columns`: one pass of the loop body per column
`i` in `0..3`. -/
def mix_columns (block : AesBlock) : AesBlock :=
  (List.range 4).foldl
    (fun result i =>
      let a0 := block.get (i*4 + 0)
      let a1 := block.get (i*4 + 1)
      let a2 := block.get (i*4 + 2)
      let a3 := block.get (i*4 + 3)
      let result := result.set (i*4 + 0) (gmul2 a0 ^^^ gmul3 a1 ^^^ a2 ^^^ a3)
      let result := result.set (i*4 + 1) (a0 ^^^ gmul2 a1 ^^^ gmul3 a2 ^^^ a3)
      let result := result.set (i*4 + 2) (a0 ^^^ a1 ^^^ gmul2 a2 ^^^ gmul3 a3)
      let result := result.set (i*4 + 3) (gmul3 a0 ^^^ a1 ^^^ a2 ^^^ gmul2 a3)
      result)
    AesBlock.zero

/-- Method `AesMixColumns::inv_mix_columns`: one pass of the loop body per
column `i` in `0..3`. -/
def inv_mix_columns (block : AesBlock) : AesBlock :=
  (List.range 4).foldl
    (fun result i =>
      let a0 := block.get (i*4 + 0)
      let a1 := block.get (i*4 + 1)
      let a2 := block.get (i*4 + 2)
      let a3 := block.get (i*4 + 3)
      let result := result.set (i*4 + 0) (gmul14 a0 ^^^ gmul11 a1 ^^^ gmul13 a2 ^^^ gmul9 a3)
      let result := result.set (i*4 + 1) (gmul9 a0 ^^^ gmul14 a1 ^^^ gmul11 a2 ^^^ gmul13 a3)
      let result := result.set (i*4 + 2) (gmul13 a0 ^^^ gmul9 a1 ^^^ gmul14 a2 ^^^ gmul11 a3)
      let result := result.set (i*4 + 3) (gmul11 a0 ^^^ gmul13 a1 ^^^ gmul9 a2 ^^^ gmul14 a3)
      result)
    AesBlock.zero

/-! ## aes_sbox.h

This header is included by `aes_round.h` and `aes_key_expansion.h`, but it is not
among the source files; its contents are taken from section 4.1 of the
specification. -/

/-- Modelled from the spec: the forward substitution table of `aes_sbox.h` (the
file is missing).  Section 4.1 defines it as "the standard Rijndael S-box ... as
specified in FIPS-197"; the entries are those of FIPS-197, Figure 7, row by row. -/
def sbox : List Byte :=
  [
    0x63, 0x7c, 0x77, 0x7b, 0xf2, 0x6b, 0x6f, 0xc5, 0x30, 0x01, 0x67, 0x2b, 0xfe, 0xd7, 0xab, 0x76,
    0xca, 0x82, 0xc9, 0x7d, 0xfa, 0x59, 0x47, 0xf0, 0xad, 0xd4, 0xa2, 0xaf, 0x9c, 0xa4, 0x72, 0xc0,
    0xb7, 0xfd, 0x93, 0x26, 0x36, 0x3f, 0xf7, 0xcc, 0x34, 0xa5, 0xe5, 0xf1, 0x71, 0xd8, 0x31, 0x15,
    0x04, 0xc7, 0x23, 0xc3, 0x18, 0x96, 0x05, 0x9a, 0x07, 0x12, 0x80, 0xe2, 0xeb, 0x27, 0xb2, 0x75,
    0x09, 0x83, 0x2c, 0x1a, 0x1b, 0x6e, 0x5a, 0xa0, 0x52, 0x3b, 0xd6, 0xb3, 0x29, 0xe3, 0x2f, 0x84,
    0x53, 0xd1, 0x00, 0xed, 0x20, 0xfc, 0xb1, 0x5b, 0x6a, 0xcb, 0xbe, 0x39, 0x4a, 0x4c, 0x58, 0xcf,
    0xd0, 0xef, 0xaa, 0xfb, 0x43, 0x4d, 0x33, 0x85, 0x45, 0xf9, 0x02, 0x7f, 0x50, 0x3c, 0x9f, 0xa8,
    0x51, 0xa3, 0x40, 0x8f, 0x92, 0x9d, 0x38, 0xf5, 0xbc, 0xb6, 0xda, 0x21, 0x10, 0xff, 0xf3, 0xd2,
    0xcd, 0x0c, 0x13, 0xec, 0x5f, 0x97, 0x44, 0x17, 0xc4, 0xa7, 0x7e, 0x3d, 0x64, 0x5d, 0x19, 0x73,
    0x60, 0x81, 0x4f, 0xdc, 0x22, 0x2a, 0x90, 0x88, 0x46, 0xee, 0xb8, 0x14, 0xde, 0x5e, 0x0b, 0xdb,
    0xe0, 0x32, 0x3a, 0x0a, 0x49, 0x06, 0x24, 0x5c, 0xc2, 0xd3, 0xac, 0x62, 0x91, 0x95, 0xe4, 0x79,
    0xe7, 0xc8, 0x37, 0x6d, 0x8d, 0xd5, 0x4e, 0xa9, 0x6c, 0x56, 0xf4, 0xea, 0x65, 0x7a, 0xae, 0x08,
    0xba, 0x78, 0x25, 0x2e, 0x1c, 0xa6, 0xb4, 0xc6, 0xe8, 0xdd, 0x74, 0x1f, 0x4b, 0xbd, 0x8b, 0x8a,
    0x70, 0x3e, 0xb5, 0x66, 0x48, 0x03, 0xf6, 0x0e, 0x61, 0x35, 0x57, 0xb9, 0x86, 0xc1, 0x1d, 0x9e,
    0xe1, 0xf8, 0x98, 0x11, 0x69, 0xd9, 0x8e, 0x94, 0x9b, 0x1e, 0x87, 0xe9, 0xce, 0x55, 0x28, 0xdf,
    0x8c, 0xa1, 0x89, 0x0d, 0xbf, 0xe6, 0x42, 0x68, 0x41, 0x99, 0x2d, 0x0f, 0xb0, 0x54, 0xbb, 0x16]

/-- Modelled from the spec: the inverse substitution table of `aes_sbox.h` (the
file is missing).  Section 4.1 defines it as the exact inverse of the Rijndael
S-box; the entries are those of FIPS-197, Figure 14, row by row. -/
def inv_sbox : List Byte :=
  [
    0x52, 0x09, 0x6a, 0xd5, 0x30, 0x36, 0xa5, 0x38, 0xbf, 0x40, 0xa3, 0x9e, 0x81, 0xf3, 0xd7, 0xfb,
    0x7c, 0xe3, 0x39, 0x82, 0x9b, 0x2f, 0xff, 0x87, 0x34, 0x8e, 0x43, 0x44, 0xc4, 0xde, 0xe9, 0xcb,
    0x54, 0x7b, 0x94, 0x32, 0xa6, 0xc2, 0x23, 0x3d, 0xee, 0x4c, 0x95, 0x0b, 0x42, 0xfa, 0xc3, 0x4e,
    0x08, 0x2e, 0xa1, 0x66, 0x28, 0xd9, 0x24, 0xb2, 0x76, 0x5b, 0xa2, 0x49, 0x6d, 0x8b, 0xd1, 0x25,
    0x72, 0xf8, 0xf6, 0x64, 0x86, 0x68, 0x98, 0x16, 0xd4, 0xa4, 0x5c, 0xcc, 0x5d, 0x65, 0xb6, 0x92,
    0x6c, 0x70, 0x48, 0x50, 0xfd, 0xed, 0xb9, 0xda, 0x5e, 0x15, 0x46, 0x57, 0xa7, 0x8d, 0x9d, 0x84,
    0x90, 0xd8, 0xab, 0x00, 0x8c, 0xbc, 0xd3, 0x0a, 0xf7, 0xe4, 0x58, 0x05, 0xb8, 0xb3, 0x45, 0x06,
    0xd0, 0x2c, 0x1e, 0x8f, 0xca, 0x3f, 0x0f, 0x02, 0xc1, 0xaf, 0xbd, 0x03, 0x01, 0x13, 0x8a, 0x6b,
    0x3a, 0x91, 0x11, 0x41, 0x4f, 0x67, 0xdc, 0xea, 0x97, 0xf2, 0xcf, 0xce, 0xf0, 0xb4, 0xe6, 0x73,
    0x96, 0xac, 0x74, 0x22, 0xe7, 0xad, 0x35, 0x85, 0xe2, 0xf9, 0x37, 0xe8, 0x1c, 0x75, 0xdf, 0x6e,
    0x47, 0xf1, 0x1a, 0x71, 0x1d, 0x29, 0xc5, 0x89, 0x6f, 0xb7, 0x62, 0x0e, 0xaa, 0x18, 0xbe, 0x1b,
    0xfc, 0x56, 0x3e, 0x4b, 0xc6, 0xd2, 0x79, 0x20, 0x9a, 0xdb, 0xc0, 0xfe, 0x78, 0xcd, 0x5a, 0xf4,
    0x1f, 0xdd, 0xa8, 0x33, 0x88, 0x07, 0xc7, 0x31, 0xb1, 0x12, 0x10, 0x59, 0x27, 0x80, 0xec, 0x5f,
    0x60, 0x51, 0x7f, 0xa9, 0x19, 0xb5, 0x4a, 0x0d, 0x2d, 0xe5, 0x7a, 0x9f, 0x93, 0xc9, 0x9c, 0xef,
    0xa0, 0xe0, 0x3b, 0x4d, 0xae, 0x2a, 0xf5, 0xb0, 0xc8, 0xeb, 0xbb, 0x3c, 0x83, 0x53, 0x99, 0x61,
    0x17, 0x2b, 0x04, 0x7e, 0xba, 0x77, 0xd6, 0x26, 0xe1, 0x69, 0x14, 0x63, 0x55, 0x21, 0x0c, 0x7d]

/-- Modelled from the spec: `AesSBox::substitute` of the missing `aes_sbox.h`,
the total mapping `substitute(byte) -> byte` of section 4.1, a lookup in the
256-entry forward table. -/
def substitute (x : Byte) : Byte :=
  sbox.getD x.val 0

/-- Modelled from the spec: the mapping `inverse_substitute(byte) -> byte` of
section 4.1 (the missing `aes_sbox.h`), a lookup in the 256-entry inverse table. -/
def inverse_substitute (x : Byte) : Byte :=
  inv_sbox.getD x.val 0

/-- Modelled from the spec: `AesSBox::sub_bytes` of the missing `aes_sbox.h`;
section 4.1: "applies `substitute` independently to each of the 16 bytes". -/
def sub_bytes (block : AesBlock) : AesBlock :=
  (List.range AES_BLOCK_SIZE).foldl
    (fun result i => result.set i (substitute (block.get i))) AesBlock.zero

/-- Modelled from the spec: `AesSBox::inv_sub_bytes` of the missing `aes_sbox.h`;
section 4.1: "`inv_sub_bytes` applies the inverse" to each of the 16 bytes. -/
def inv_sub_bytes (block : AesBlock) : AesBlock :=
  (List.range AES_BLOCK_SIZE).foldl
    (fun result i => result.set i (inverse_substitute (block.get i))) AesBlock.zero

/-! ## aes_key_expansion.h -/

/-- The table `rcon` local to `AesKeyExpansion::expand_key`. -/
def rcon : List Byte :=
  [0x01, 0x02, 0x04, 0x08, 0x10, 0x20, 0x40, 0x80, 0x1B, 0x36]

/-- The body of the loop `for (int i = 1; i <= AES_NUM_ROUNDS; i++)` of
`AesKeyExpansion::expand_key`: it fills `round_keys[i]` from `round_keys[i-1]`.
The four-byte array `temp` is held in `temp0 .. temp3`. -/
def expand_key_round (round_keys : AesRoundKeys) (i : Nat) : AesRoundKeys :=
  let prev_key := round_keys.get (i - 1)
  let curr_key := round_keys.get i
  -- 1. Rotate the last word
  let temp0 := prev_key.get 13
  let temp1 := prev_key.get 14
  let temp2 := prev_key.get 15
  let temp3 := prev_key.get 12
  -- 2. Apply S-box to all bytes in the rotated word
  let temp0 := substitute temp0
  let temp1 := substitute temp1
  let temp2 := substitute temp2
  let temp3 := substitute temp3
  -- 3. XOR with Rcon in the first byte
  let temp0 := temp0 ^^^ rcon.getD (i - 1) 0
  -- 4. Generate the first word of the new round key
  let curr_key := curr_key.set 0 (prev_key.get 0 ^^^ temp0)
  let curr_key := curr_key.set 1 (prev_key.get 1 ^^^ temp1)
  let curr_key := curr_key.set 2 (prev_key.get 2 ^^^ temp2)
  let curr_key := curr_key.set 3 (prev_key.get 3 ^^^ temp3)
  -- 5. Generate the remaining words
  let curr_key := (List.range' 1 3).foldl
    (fun curr_key j =>
      let curr_key :=
        curr_key.set (j*4 + 0) (prev_key.get (j*4 + 0) ^^^ curr_key.get ((j-1)*4 + 0))
      let curr_key :=
        curr_key.set (j*4 + 1) (prev_key.get (j*4 + 1) ^^^ curr_key.get ((j-1)*4 + 1))
      let curr_key :=
        curr_key.set (j*4 + 2) (prev_key.get (j*4 + 2) ^^^ curr_key.get ((j-1)*4 + 2))
      let curr_key :=
        curr_key.set (j*4 + 3) (prev_key.get (j*4 + 3) ^^^ curr_key.get ((j-1)*4 + 3))
      curr_key)
    curr_key
  round_keys.set i curr_key

/-- Method `AesKeyExpansion::expand_key`.  The output parameter `round_keys` is
passed in with its initial contents and returned. -/
def expand_key (key : AesKey) (round_keys : AesRoundKeys) : AesRoundKeys :=
  -- The first round key is the key itself
  let round_keys := (List.range AES_KEY_SIZE).foldl
    (fun round_keys i => round_keys.set 0 ((round_keys.get 0).set i (key.key.get i)))
    round_keys
  -- Generate the remaining round keys
  (List.range' 1 AES_NUM_ROUNDS).foldl expand_key_round round_keys

/-- The declaration `AesRoundKeys round_keys;` of a local variable: each of the
eleven blocks is built by `AesBlock()`. -/
def AesRoundKeys.default : AesRoundKeys :=
  ⟨AesBlock.zero, AesBlock.zero, AesBlock.zero, AesBlock.zero, AesBlock.zero, AesBlock.zero,
   AesBlock.zero, AesBlock.zero, AesBlock.zero, AesBlock.zero, AesBlock.zero⟩

/-! ## aes_round.h -/

/-- Method `AesRound::encrypt_round`. -/
def encrypt_round (block round_key : AesBlock) (is_final_round : Bool) : AesBlock :=
  -- 1. SubBytes
  let after_sub_bytes := sub_bytes block
  -- 2. ShiftRows
  let after_shift_rows := shift_rows after_sub_bytes
  -- 3. MixColumns (skipped in final round)
  let after_mix_columns :=
    if is_final_round then after_shift_rows else mix_columns after_shift_rows
  -- 4. AddRoundKey
  after_mix_columns.xor round_key

/-- Method `AesRound::decrypt_round`. -/
def decrypt_round (block round_key : AesBlock) (is_first_round : Bool) : AesBlock :=
  -- 1. InvShiftRows
  let after_inv_shift_rows := inv_shift_rows block
  -- 2. InvSubBytes
  let after_inv_sub_bytes := inv_sub_bytes after_inv_shift_rows
  -- 3. AddRoundKey
  let after_add_round_key := after_inv_sub_bytes.xor round_key
  -- 4. InvMixColumns (skipped in first round)
  if is_first_round then after_add_round_key else inv_mix_columns after_add_round_key

/-! ## aes_top.h -/

/-- Method `AesTop::process_non_pipelined`.  The reference parameters `block` and
`delay` (an `sc_time`, counted in nanoseconds) are returned as a pair. -/
def process_non_pipelined (block : AesBlock) (round_keys : AesRoundKeys)
    (operation : AesOperation) (delay : Nat) : AesBlock × Nat :=
  if operation = AesOperation.ENCRYPT then
    -- Initial AddRoundKey
    let block := block.xor (round_keys.get 0)
    -- Process rounds 1 to 9
    let block := (List.range' 1 (AES_NUM_ROUNDS - 1)).foldl
      (fun block i => encrypt_round block (round_keys.get i) false) block
    -- Final round
    let block := encrypt_round block (round_keys.get AES_NUM_ROUNDS) true
    (block, delay)
  else
    -- Initial AddRoundKey
    let block := block.xor (round_keys.get AES_NUM_ROUNDS)
    -- Process rounds 9 to 1
    let block := (List.range' 1 (AES_NUM_ROUNDS - 1)).reverse.foldl
      (fun block i => decrypt_round block (round_keys.get i) false) block
    -- Final round
    let block := decrypt_round block (round_keys.get 0) true
    (block, delay)

/-- Method `AesTop::process_pipelined`: the block is processed as in
non-pipelined mode, then `delay += sc_time(10, SC_NS)`. -/
def process_pipelined (block : AesBlock) (round_keys : AesRoundKeys)
    (operation : AesOperation) (delay : Nat) : AesBlock × Nat :=
  let r := process_non_pipelined block round_keys operation delay
  (r.1, r.2 + 10)

/-! ## The transaction between the driver and `AesTop` -/

/-- The values of `tlm::tlm_response_status` that the sources use. -/
inductive tlm_response_status where
  | TLM_OK_RESPONSE
  | TLM_INCOMPLETE_RESPONSE
  | TLM_GENERIC_ERROR_RESPONSE
deriving DecidableEq, Repr

/-- Class `AesExtension`: the fields `operation`, `mode` and `key`. -/
structure AesExtension where
  operation : AesOperation
  mode : AesMode
  key : AesKey
deriving DecidableEq, Repr

/-- The parts of a `tlm::tlm_generic_payload` that `AesTop::b_transport` reads or
writes: the `AesBlock` behind the data pointer, the `AesExtension` (absent when
`get_extension` returns a null pointer) and the response status. -/
structure tlm_generic_payload where
  data : AesBlock
  extension : Option AesExtension
  response_status : tlm_response_status
deriving DecidableEq, Repr

/-- Method `tlm_generic_payload::is_response_error` of the TLM library: true for
every status other than `TLM_OK_RESPONSE`. -/
def tlm_generic_payload.is_response_error (trans : tlm_generic_payload) : Bool :=
  trans.response_status ≠ tlm_response_status.TLM_OK_RESPONSE

/-! ## The key expansion transaction, on the bytes behind the data pointer

`AesTop::generate_round_keys` hands `AesKeyExpansion::b_transport` a pointer to
an `AesKey` and declares `sizeof(AesKey)` bytes of data.  The callee casts that
one pointer both to `AesKey*` and to `AesRoundKeys*`.  An `AesBlock` is sixteen
bytes and an `AesRoundKeys` is eleven of them in a row, so `key.key[i]` is the
byte at offset `i` and `round_keys.round_keys[r].data[i]` the byte at offset
`16 * r + i`. -/

/-- The memory reached through a data pointer: the byte at each offset from the
pointer, and the offsets that have been stored to, latest first. -/
structure Buffer where
  bytes : Nat → Byte
  stored : List Nat

namespace Buffer

/-- A read of the byte at an offset. -/
def load (m : Buffer) (offset : Nat) : Byte :=
  m.bytes offset

/-- A write of a byte at an offset. -/
def store (m : Buffer) (offset : Nat) (v : Byte) : Buffer :=
  { bytes := fun o => if o = offset then v else m.bytes o
    stored := offset :: m.stored }

/-- A buffer that holds `key` in its first sixteen bytes and `fill` in every byte
after them, with nothing stored yet. -/
def of_key (key : AesKey) (fill : Byte) : Buffer :=
  { bytes := fun o => if o < AES_KEY_SIZE then key.key.get o else fill
    stored := [] }

end Buffer

/-- The declared data length of the transaction that
`AesTop::generate_round_keys` builds: `sizeof(AesKey)`. -/
def key_transaction_data_length : Nat := AES_KEY_SIZE

/-- The body of the loop `for (int i = 1; i <= AES_NUM_ROUNDS; i++)` of
`AesKeyExpansion::expand_key`, with `prev_key` and `curr_key` as the offsets of
`round_keys[i-1]` and `round_keys[i]` in the buffer that `round_keys` points
into. -/
def expand_key_round_at (rk : Nat) (m : Buffer) (i : Nat) : Buffer :=
  let prev_key := rk + 16 * (i - 1)
  let curr_key := rk + 16 * i
  -- 1. Rotate the last word
  let temp0 := m.load (prev_key + 13)
  let temp1 := m.load (prev_key + 14)
  let temp2 := m.load (prev_key + 15)
  let temp3 := m.load (prev_key + 12)
  -- 2. Apply S-box to all bytes in the rotated word
  let temp0 := substitute temp0
  let temp1 := substitute temp1
  let temp2 := substitute temp2
  let temp3 := substitute temp3
  -- 3. XOR with Rcon in the first byte
  let temp0 := temp0 ^^^ rcon.getD (i - 1) 0
  -- 4. Generate the first word of the new round key
  let m := m.store (curr_key + 0) (m.load (prev_key + 0) ^^^ temp0)
  let m := m.store (curr_key + 1) (m.load (prev_key + 1) ^^^ temp1)
  let m := m.store (curr_key + 2) (m.load (prev_key + 2) ^^^ temp2)
  let m := m.store (curr_key + 3) (m.load (prev_key + 3) ^^^ temp3)
  -- 5. Generate the remaining words
  (List.range' 1 3).foldl
    (fun m j =>
      let m := m.store (curr_key + (j*4 + 0))
        (m.load (prev_key + (j*4 + 0)) ^^^ m.load (curr_key + ((j-1)*4 + 0)))
      let m := m.store (curr_key + (j*4 + 1))
        (m.load (prev_key + (j*4 + 1)) ^^^ m.load (curr_key + ((j-1)*4 + 1)))
      let m := m.store (curr_key + (j*4 + 2))
        (m.load (prev_key + (j*4 + 2)) ^^^ m.load (curr_key + ((j-1)*4 + 2)))
      let m := m.store (curr_key + (j*4 + 3))
        (m.load (prev_key + (j*4 + 3)) ^^^ m.load (curr_key + ((j-1)*4 + 3)))
      m)
    m

/-- Method `AesKeyExpansion::expand_key`, run on a buffer in which the argument
`key` lies at offset `key` and the argument `round_keys` at offset `rk`. -/
def expand_key_at (key rk : Nat) (m : Buffer) : Buffer :=
  -- The first round key is the key itself
  let m := (List.range AES_KEY_SIZE).foldl
    (fun m i => m.store (rk + 16 * 0 + i) (m.load (key + i))) m
  -- Generate the remaining round keys
  (List.range' 1 AES_NUM_ROUNDS).foldl (expand_key_round_at rk) m

/-- Method `AesKeyExpansion::b_transport`: `key_ptr` and `round_keys_ptr` are
both the data pointer of the transaction, offset `0` of its buffer.  The
buffer and the response status are returned. -/
def AesKeyExpansion.b_transport (data : Buffer) : Buffer × tlm_response_status :=
  -- Generate round keys
  let data := expand_key_at 0 0 data
  -- Set response status
  (data, tlm_response_status.TLM_OK_RESPONSE)

/-- The `AesKey` that lies at the data pointer: the bytes at offsets 0 to 15. -/
def Buffer.key (m : Buffer) : AesKey :=
  ⟨AesBlock.ofFn (fun i => m.load i)⟩

/-! ## Methods of `AesTop` -/

/-- Method `AesTop::generate_round_keys`: the round keys it leaves in
`round_keys`.  The method first sends a transaction to the key expansion
module, whose data pointer is the address of `key`; the callee stores through
that pointer, so the direct call `AesKeyExpansion::expand_key(key, round_keys)`
that ends the method reads the key as the callee has left it.  The bytes of
memory after the key are stored to before they are read; `0` stands for them.
The callee answers `TLM_OK_RESPONSE` on every buffer, so the error report after
the transaction is never raised.  The offsets that the callee stores to are
given by `generate_round_keys_stored`. -/
def generate_round_keys (key : AesKey) (round_keys : AesRoundKeys) : AesRoundKeys :=
  -- Send the transaction to the key expansion module
  let data := (AesKeyExpansion.b_transport (Buffer.of_key key 0)).1
  -- For simulation purposes, we'll also use the static method directly
  expand_key data.key round_keys

/-- The stores of `AesTop::generate_round_keys` through the pointer to its
argument `key`: the offsets from the start of the key that the transaction has
stored to when the method returns, latest first. -/
def generate_round_keys_stored (key : AesKey) : List Nat :=
  (AesKeyExpansion.b_transport (Buffer.of_key key 0)).1.stored

/-- Method `AesTop::b_transport`.  The reference parameters `trans` and `delay`
are returned as a pair; the stores that the call makes through the pointer to
the key of the extension are given by `b_transport_stored`. -/
def b_transport (trans : tlm_generic_payload) (delay : Nat) : tlm_generic_payload × Nat :=
  match trans.extension with
  | none =>
    ({ trans with response_status := tlm_response_status.TLM_GENERIC_ERROR_RESPONSE }, delay)
  | some ext =>
    -- Generate round keys
    let round_keys := generate_round_keys ext.key AesRoundKeys.default
    -- Process the block based on operation and mode
    let r :=
      if ext.mode = AesMode.PIPELINED then
        process_pipelined trans.data round_keys ext.operation delay
      else
        process_non_pipelined trans.data round_keys ext.operation delay
    -- Set response status
    ({ trans with data := r.1, response_status := tlm_response_status.TLM_OK_RESPONSE }, r.2)

/-- The stores of `AesTop::b_transport` through the pointer to the member `key`
of the extension: none when there is no extension, else those of
`generate_round_keys(ext->key, round_keys, delay)`. -/
def b_transport_stored (trans : tlm_generic_payload) : List Nat :=
  match trans.extension with
  | none => []
  | some ext => generate_round_keys_stored ext.key

/-! ## aes_simulation.cpp -/

/-- The C function `isspace` in the "C" locale: space and the five control
characters from horizontal tab to carriage return. -/
def isspace (c : Char) : Bool :=
  c.toNat = 32 || (9 ≤ c.toNat && c.toNat ≤ 13)

/-- The value of a hexadecimal digit, in either case; `none` for any other
character. -/
def hex_digit_value (c : Char) : Option Nat :=
  if 48 ≤ c.toNat ∧ c.toNat ≤ 57 then some (c.toNat - 48)
  else if 97 ≤ c.toNat ∧ c.toNat ≤ 102 then some (c.toNat - 87)
  else if 65 ≤ c.toNat ∧ c.toNat ≤ 70 then some (c.toNat - 55)
  else none

/-- The digits phase of `strtol`: the value of the longest run of hexadecimal
digits at the head of the string, starting from `acc`. -/
def strtol_digits (acc : Nat) : List Char → Nat
  | [] => acc
  | c :: rest =>
    match hex_digit_value c with
    | some v => strtol_digits (acc * 16 + v) rest
    | none => acc

/-- The call `strtol(s, nullptr, 16)` of the C library, for the strings of at
most two characters that `hex_to_bytes` passes to it: leading white space is
skipped, one sign is taken, then the longest run of hexadecimal digits is
read; the value is `0` when there is no digit.  (In two characters the prefix
`0x` cannot be followed by a digit, and the value cannot overflow.) -/
def strtol (s : List Char) : Int :=
  let s := s.dropWhile isspace
  match s with
  | [] => 0
  | c :: rest =>
    if c.toNat = 45 then -((strtol_digits 0 rest : Nat) : Int)
    else if c.toNat = 43 then ((strtol_digits 0 rest : Nat) : Int)
    else ((strtol_digits 0 (c :: rest) : Nat) : Int)

/-- The conversion `static_cast<uint8_t>` of a `long`: the value modulo `2^8`. -/
def to_uint8 (v : Int) : Byte :=
  Fin.ofNat (v % 256).toNat

/-- The loop of `hex_to_bytes` over the characters of `hex`: each pass takes
`hex.substr(i, 2)`, two characters, or one at the end of a string of odd
length. -/
def hex_to_bytes_loop : List Char → List Byte
  | [] => []
  | [c] => [to_uint8 (strtol [c])]
  | c1 :: c2 :: rest => to_uint8 (strtol [c1, c2]) :: hex_to_bytes_loop rest

/-- Function `hex_to_bytes`. -/
def hex_to_bytes (hex : String) : List Byte :=
  hex_to_bytes_loop hex.toList

/-- The character that `std::hex` prints for a digit value below sixteen: `0` to
`9` (codes 48 to 57), then `a` to `f` (codes 97 to 102). -/
def hex_char (n : Nat) : Char :=
  if n < 10 then Char.ofNat (48 + n) else Char.ofNat (87 + n)

/-- What `ss << std::hex << std::setw(2) << std::setfill('0') << static_cast<int>(byte)`
appends: the two hexadecimal digits of the byte, in lower case. -/
def hex_byte (byte : Byte) : String :=
  String.mk [hex_char (byte.val / 16), hex_char (byte.val % 16)]

/-- Function `bytes_to_hex`: the stream is set to `hex` with fill character
`0`, and every byte is inserted as an `int` of width two. -/
def bytes_to_hex (bytes : List Byte) : String :=
  bytes.foldl (fun ss byte => ss ++ hex_byte byte) ""

/-- Method `AesBlock::to_string`. -/
def AesBlock.to_string (b : AesBlock) : String :=
  (List.range AES_BLOCK_SIZE).foldl (fun ss i => ss ++ hex_byte (b.get i)) ""

/-- How a call of a driver method ends. -/
inductive Outcome where
  /-- The method returns this string. -/
  | returned (result_hex : String)
  /-- The method raises `SC_REPORT_ERROR` with this message. -/
  | report_error (msg : String)
  /-- The call reads `bytes[i]` with `i` past the end of the vector, or stores
  past the end of the object that a pointer points into: the language gives
  the call no meaning. -/
  | undefined
deriving DecidableEq, Repr

/-- The loop `for (int i = 0; i < AES_BLOCK_SIZE; i++) block.data[i] = bytes[i];`
of the driver, started on the block built by `AesBlock()`.  The read `bytes[i]`
has a value only for `i < bytes.size()`; the result is `none` when a read has
none. -/
def fill_block (bytes : List Byte) : Option AesBlock :=
  (List.range AES_BLOCK_SIZE).foldl
    (fun block i =>
      match block, bytes.get? i with
      | some block, some byte => some (block.set i byte)
      | _, _ => none)
    (some AesBlock.zero)

/-- The number of bytes from the member `key` of an `AesExtension` to the end
of the object: `key` is the member declared last, an `AesKey` of
`sizeof(AesKey)` bytes. -/
def AesExtension.bytes_from_key : Nat := AES_KEY_SIZE

/-- The transaction that `AesSimulation::encrypt` and `AesSimulation::decrypt`
build, which differ only in the operation written to the extension; `none`
when a fill loop reads past the end of its vector. -/
def AesSimulation.transaction (operation : AesOperation) (text_hex key_hex : String)
    (mode : AesMode) : Option tlm_generic_payload :=
  -- Convert hex strings to bytes
  let text_bytes := hex_to_bytes text_hex
  let key_bytes := hex_to_bytes key_hex
  -- Fill the block and key with data
  match fill_block text_bytes, fill_block key_bytes with
  | some text, some key =>
    -- Create a transaction, set it up, create and set the AES extension
    some
      { data := text
        extension := some { operation := operation, mode := mode, key := ⟨key⟩ }
        response_status := tlm_response_status.TLM_INCOMPLETE_RESPONSE }
  | _, _ => none

/-- The part shared by `AesSimulation::encrypt` and `AesSimulation::decrypt`,
which differ only in the operation written to the extension and in the message
of the error report.  The extension is an object of its own, made by
`new AesExtension()`: a store through the pointer to its member `key` at an
offset of `AesExtension.bytes_from_key` or more lands past the object. -/
def AesSimulation.run (operation : AesOperation) (msg : String) (text_hex key_hex : String)
    (mode : AesMode) : Outcome :=
  match AesSimulation.transaction operation text_hex key_hex mode with
  | none => Outcome.undefined
  | some payload =>
    -- Send the transaction to the AES top module
    if (b_transport_stored payload).any
        (fun offset => decide (AesExtension.bytes_from_key ≤ offset)) then
      Outcome.undefined
    else
      let payload := (b_transport payload 0).1
      -- Check response status
      if payload.is_response_error then Outcome.report_error msg
      -- Convert the result back to hex string
      else Outcome.returned payload.data.to_string

/-- The least value of a 32-bit `int`. -/
def INT_MIN : Int := -2147483648

/-- The greatest value of a 32-bit `int`. -/
def INT_MAX : Int := 2147483647

/-- The `int` that holds an arithmetic result: the result itself when it lies
between `INT_MIN` and `INT_MAX`, and otherwise the value of its low 32 bits in
two's complement (the language leaves that case open; the wrap of the usual
targets is taken here). -/
def to_int (v : Int) : Int :=
  (v + 2147483648) % 2 ^ 32 - 2147483648

/-- The values of a 32-bit `int`. -/
def representable (v : Int) : Prop :=
  INT_MIN ≤ v ∧ v ≤ INT_MAX

instance (v : Int) : Decidable (representable v) := by
  unfold representable
  infer_instance

namespace ALU

/-- Method `ALU::compute`: the value written to port `result` for the values
read from ports `a`, `b` and `opcode`.  The port `opcode` carries an
`sc_uint<2>`, a value below four. -/
def compute (a b : Int) (opcode : Fin 4) : Int :=
  match opcode.val with
  | 0 => to_int (a + b)  -- Addition
  | 1 => to_int (a - b)  -- Subtraction
  | 2 => to_int (a * b)  -- Multiplication
  | 3 => a               -- Pass through a
  | _ => 0

end ALU

/-! ## individual_project_3/task2_fibonacci.cpp -/

/-- What a thread does to the outside, step by step: it writes a value to its
output port, or it waits for a number of nanoseconds. -/
inductive Action where
  /-- The call `fib_out.write(v)`. -/
  | write (v : Int)
  /-- The call `wait(ns, SC_NS)`. -/
  | wait (ns : Nat)
  deriving DecidableEq, Repr

/-- The values written, in order. -/
def written : List Action → List Int
  | [] => []
  | Action.write v :: rest => v :: written rest
  | Action.wait _ :: rest => written rest

/-- The time waited in all, in nanoseconds. -/
def waited : List Action → Nat
  | [] => 0
  | Action.write _ :: rest => waited rest
  | Action.wait ns :: rest => ns + waited rest

namespace FibonacciGenerator

/-- The local variables `a` and `b` of `generate_sequence`, with the actions
taken so far. -/
structure Locals where
  a : Int
  b : Int
  actions : List Action

/-- One pass of the loop of `generate_sequence`, for loop variable `i`. -/
def generate_sequence_pass (s : Locals) (i : Nat) : Locals :=
  let c := to_int (s.a + s.b)
  let actions := s.actions ++ [Action.write c]
  let a := s.b
  let b := c
  -- No wait after the last number
  let actions := if i < 7 then actions ++ [Action.wait 3] else actions
  { a := a, b := b, actions := actions }

/-- Thread `FibonacciGenerator::generate_sequence`: the actions it takes, in
order, from its start to its return. -/
def generate_sequence : List Action :=
  let a : Int := 0
  let b : Int := 1
  -- Output first two numbers, then generate remaining 6 numbers
  let s : Locals :=
    { a := a, b := b,
      actions := [Action.write a, Action.wait 3, Action.write b, Action.wait 3] }
  ((List.range' 2 6).foldl generate_sequence_pass s).actions

end FibonacciGenerator

/-! ## individual_project_3/task3_shift_register.cpp -/

namespace ShiftRegister

end ShiftRegister

/-! ## Test vectors of aes_testbench.cpp -/

/-- Bytes of `00112233445566778899aabbccddeeff`, the plaintext of FIPS-197
Appendix C.1. -/
def vector1_plaintext : AesBlock :=
  ⟨0x00, 0x11, 0x22, 0x33, 0x44, 0x55, 0x66, 0x77, 0x88, 0x99, 0xaa, 0xbb, 0xcc, 0xdd, 0xee, 0xff⟩

/-- Bytes of `000102030405060708090a0b0c0d0e0f`, the key of FIPS-197 Appendix C.1. -/
def vector1_key : AesKey :=
  ⟨⟨0x00, 0x01, 0x02, 0x03, 0x04, 0x05, 0x06, 0x07, 0x08, 0x09, 0x0a, 0x0b, 0x0c, 0x0d, 0x0e,
    0x0f⟩⟩

/-- Bytes of `69c4e0d86a7b0430d8cdb78070b4c55a`, the ciphertext of FIPS-197
Appendix C.1. -/
def vector1_ciphertext : AesBlock :=
  ⟨0x69, 0xc4, 0xe0, 0xd8, 0x6a, 0x7b, 0x04, 0x30, 0xd8, 0xcd, 0xb7, 0x80, 0x70, 0xb4, 0xc5, 0x5a⟩

/-- Bytes of `3243f6a8885a308d313198a2e0370734`, the plaintext of FIPS-197
Appendix B. -/
def vector3_plaintext : AesBlock :=
  ⟨0x32, 0x43, 0xf6, 0xa8, 0x88, 0x5a, 0x30, 0x8d, 0x31, 0x31, 0x98, 0xa2, 0xe0, 0x37, 0x07, 0x34⟩

/-- Bytes of `2b7e151628aed2a6abf7158809cf4f3c`, the key of FIPS-197 Appendix B. -/
def vector3_key : AesKey :=
  ⟨⟨0x2b, 0x7e, 0x15, 0x16, 0x28, 0xae, 0xd2, 0xa6, 0xab, 0xf7, 0x15, 0x88, 0x09, 0xcf, 0x4f,
    0x3c⟩⟩

/-- Bytes of `3925841d02dc09fbdc118597196a0b32`, the ciphertext of FIPS-197
Appendix B. -/
def vector3_ciphertext : AesBlock :=
  ⟨0x39, 0x25, 0x84, 0x1d, 0x02, 0xdc, 0x09, 0xfb, 0xdc, 0x11, 0x85, 0x97, 0x19, 0x6a, 0x0b, 0x32⟩

/-! ## FIPS-197 reference definitions

Definitions written from FIPS-197 itself, independent of the tables and of
`gmul2`: multiplication in GF(2^8) (section 4.2) and the affine transformation
that, applied to the multiplicative inverse, gives the S-box (section 5.1.1). -/

/-- Product of two polynomials over GF(2), each given by its coefficient bits;
the multiplier `b` has degree below eight. -/
def clmul (a b : Nat) : Nat :=
  (List.range 8).foldl (fun acc i => if b.testBit i then acc ^^^ (a <<< i) else acc) 0

/-- Remainder of a polynomial of degree at most fourteen modulo
`x^8 + x^4 + x^3 + x + 1` (`0x11B`): the terms of degree fourteen down to eight
are cancelled in turn. -/
def gf_reduce (p : Nat) : Nat :=
  [14, 13, 12, 11, 10, 9, 8].foldl
    (fun p i => if p.testBit i then p ^^^ (0x11B <<< (i - 8)) else p) p

/-- Multiplication in GF(2^8) as FIPS-197 section 4.2 defines it: the product of
the two polynomials, reduced modulo `x^8 + x^4 + x^3 + x + 1`. -/
def gf_mul (a b : Byte) : Byte :=
  Fin.ofNat (gf_reduce (clmul a.val b.val))

/-- The affine transformation of FIPS-197 section 5.1.1: bit `i` of the result is
`b_i + b_(i+4) + b_(i+5) + b_(i+6) + b_(i+7) + c_i`, indices modulo eight, with
`c = 0x63`. -/
def fips197_affine (b : Byte) : Byte :=
  Fin.ofNat ((List.range 8).foldl
    (fun acc i =>
      if xor (b.val.testBit i) (xor (b.val.testBit ((i + 4) % 8))
          (xor (b.val.testBit ((i + 5) % 8)) (xor (b.val.testBit ((i + 6) % 8))
          (xor (b.val.testBit ((i + 7) % 8)) (Nat.testBit 0x63 i)))))
      then acc ||| (1 <<< i) else acc)
    0)

/-- The inverse affine transformation of FIPS-197 section 5.3.2: bit `i` of the
result is `b_(i+2) + b_(i+5) + b_(i+7) + d_i`, indices modulo eight, with
`d = 0x05`. -/
def fips197_inv_affine (b : Byte) : Byte :=
  Fin.ofNat ((List.range 8).foldl
    (fun acc i =>
      if xor (b.val.testBit ((i + 2) % 8)) (xor (b.val.testBit ((i + 5) % 8))
          (xor (b.val.testBit ((i + 7) % 8)) (Nat.testBit 0x05 i)))
      then acc ||| (1 <<< i) else acc)
    0)

/-- The property that defines the S-box in FIPS-197 section 5.1.1: `s` is the
affine transformation of the multiplicative inverse of `x` in GF(2^8), where
`0`, which has no inverse, stands for its own inverse. -/
def IsFips197SBox (x s : Byte) : Prop :=
  ∃ y : Byte, ((x = 0 ∧ y = 0) ∨ gf_mul x y = 1) ∧ s = fips197_affine y

/-! ## Reference definitions for the column and key-schedule claims

Definitions written from the wording of sections 4.3 and 4.4 of the
specification, to be compared with `mix_columns`, `inv_mix_columns` and
`expand_key`. -/

/-- The four bytes at positions `4j .. 4j+3` of a block: column `j` of the state
in the column-major layout, or word `j` of a round key. -/
def word (b : AesBlock) (j : Nat) : List Byte :=
  [b.get (4*j), b.get (4*j + 1), b.get (4*j + 2), b.get (4*j + 3)]

/-- The forward matrix of section 4.3, row by row. -/
def mix_matrix : List (List Byte) :=
  [[2, 3, 1, 1], [1, 2, 3, 1], [1, 1, 2, 3], [3, 1, 1, 2]]

/-- The inverse matrix of section 4.3, row by row. -/
def inv_mix_matrix : List (List Byte) :=
  [[14, 11, 13, 9], [9, 14, 11, 13], [13, 9, 14, 11], [11, 13, 9, 14]]

/-- The product of a matrix row with a column vector over GF(2^8): the entries
are multiplied by `gf_mul` and added by exclusive or. -/
def gf_dot (row col : List Byte) : Byte :=
  (List.zipWith gf_mul row col).foldl (fun acc t => acc ^^^ t) 0

/-- The product of a matrix, given row by row, with a column vector over
GF(2^8). -/
def gf_mat_vec (m : List (List Byte)) (col : List Byte) : List Byte :=
  m.map (fun row => gf_dot row col)

/-- Step 1 of section 4.4, first half: a word rotated left by one byte, byte
order `[1, 2, 3, 0]`. -/
def rot_word (w : List Byte) : List Byte :=
  [w.getD 1 0, w.getD 2 0, w.getD 3 0, w.getD 0 0]

/-- Step 1 of section 4.4, second half: the forward substitution table applied
to each byte of a word. -/
def sub_word (w : List Byte) : List Byte :=
  w.map substitute

/-- Step 2 of section 4.4: the first byte of a word XORed with a round
constant. -/
def xor_first (w : List Byte) (c : Byte) : List Byte :=
  match w with
  | [] => []
  | a :: rest => (a ^^^ c) :: rest

/-- Two words XORed byte by byte. -/
def xor_word (u v : List Byte) : List Byte :=
  List.zipWith (fun a b => a ^^^ b) u v

/-! ## Closed form of the key schedule -/

/-- The block that one pass of the outer loop of `expand_key` leaves in
`round_keys[i]`, as a function of `prev_key = round_keys[i-1]`: every cell of
`curr_key` is written, the first word from `prev_key` and `temp`, each later
word from `prev_key` and the word of `curr_key` just before it. -/
def next_round_key (prev_key : AesBlock) (i : Nat) : AesBlock :=
  let temp0 := substitute prev_key.d13 ^^^ rcon.getD (i - 1) 0
  let temp1 := substitute prev_key.d14
  let temp2 := substitute prev_key.d15
  let temp3 := substitute prev_key.d12
  let c0 := prev_key.d0 ^^^ temp0
  let c1 := prev_key.d1 ^^^ temp1
  let c2 := prev_key.d2 ^^^ temp2
  let c3 := prev_key.d3 ^^^ temp3
  let c4 := prev_key.d4 ^^^ c0
  let c5 := prev_key.d5 ^^^ c1
  let c6 := prev_key.d6 ^^^ c2
  let c7 := prev_key.d7 ^^^ c3
  let c8 := prev_key.d8 ^^^ c4
  let c9 := prev_key.d9 ^^^ c5
  let c10 := prev_key.d10 ^^^ c6
  let c11 := prev_key.d11 ^^^ c7
  let c12 := prev_key.d12 ^^^ c8
  let c13 := prev_key.d13 ^^^ c9
  let c14 := prev_key.d14 ^^^ c10
  let c15 := prev_key.d15 ^^^ c11
  ⟨c0, c1, c2, c3, c4, c5, c6, c7, c8, c9, c10, c11, c12, c13, c14, c15⟩

/-- Round key `i` of the schedule of `key`: the key itself, then one pass of the
loop of `expand_key` per round. -/
def round_key (key : AesKey) : Nat → AesBlock
  | 0 => key.key
  | i + 1 => next_round_key (round_key key i) (i + 1)

/-! ## The calls made by `process_non_pipelined`, in order -/

/-- One step of `AesTop::process_non_pipelined`: the initial AddRoundKey
`block ^ round_keys[key_index]`, or a call of `AesRound::encrypt_round` or
`AesRound::decrypt_round` with `round_keys[key_index]` and the flag it is given. -/
inductive RoundCall where
  | add_round_key (key_index : Nat)
  | encrypt_round (key_index : Nat) (is_final_round : Bool)
  | decrypt_round (key_index : Nat) (is_first_round : Bool)
deriving DecidableEq, Repr

namespace RoundCall

/-- Index of the round key that a step consumes. -/
def key_index : RoundCall → Nat
  | add_round_key i => i
  | encrypt_round i _ => i
  | decrypt_round i _ => i

/-- Whether a step is a call of `AesRound::decrypt_round`. -/
def is_decrypt_round : RoundCall → Bool
  | decrypt_round _ _ => true
  | _ => false

/-- Whether a step is a call of `AesRound::decrypt_round` that skips
`inv_mix_columns`, that is, one with `is_first_round` set. -/
def skips_inv_mix_columns : RoundCall → Bool
  | decrypt_round _ is_first_round => is_first_round
  | _ => false

/-- The effect of one step on the block. -/
def run (round_keys : AesRoundKeys) (block : AesBlock) : RoundCall → AesBlock
  | add_round_key i => block.xor (round_keys.get i)
  | encrypt_round i is_final_round => Aes.encrypt_round block (round_keys.get i) is_final_round
  | decrypt_round i is_first_round => Aes.decrypt_round block (round_keys.get i) is_first_round

end RoundCall

/-- The steps of `AesTop::process_non_pipelined`, in the order in which the
method takes them: the statements of each branch, read off one by one, with
the loop unrolled over its index range. -/
def process_non_pipelined_calls (operation : AesOperation) : List RoundCall :=
  if operation = AesOperation.ENCRYPT then
    -- Initial AddRoundKey
    [RoundCall.add_round_key 0]
    -- Process rounds 1 to 9
    ++ (List.range' 1 (AES_NUM_ROUNDS - 1)).map (fun i => RoundCall.encrypt_round i false)
    -- Final round
    ++ [RoundCall.encrypt_round AES_NUM_ROUNDS true]
  else
    -- Initial AddRoundKey
    [RoundCall.add_round_key AES_NUM_ROUNDS]
    -- Process rounds 9 to 1
    ++ (List.range' 1 (AES_NUM_ROUNDS - 1)).reverse.map
        (fun i => RoundCall.decrypt_round i false)
    -- Final round
    ++ [RoundCall.decrypt_round 0 true]

/-- The flag `is_first_round` that `AesRound::b_transport` computes from the
round index of a request. -/
def is_first_round (round_index : Nat) : Bool :=
  round_index = 0

/-- The flag `is_final_round` that `AesRound::b_transport` computes from the
round index of a request. -/
def is_final_round (round_index : Nat) : Bool :=
  round_index = AES_NUM_ROUNDS

/-! ## Reference definitions for the round sequences of section 4.6 -/

/-- The state `s_i` of the encrypt sequence: `s_0` is the input XORed with
`round_keys[0]`, and `s_i` is `encrypt_round` applied to `s_(i-1)` with
`round_keys[i]` and `is_final = false`. -/
def encrypt_state (p : AesBlock) (rk : AesRoundKeys) : Nat → AesBlock
  | 0 => p.xor (rk.get 0)
  | i + 1 => encrypt_round (encrypt_state p rk i) (rk.get (i + 1)) false

/-- The state of the decrypt sequence after `n` rounds, `t_(10-n)` in the
numbering by round key: `t_10` is the input XORed with `round_keys[10]`, and
`t_i` is `decrypt_round` applied to `t_(i+1)` with `round_keys[i]` and
`is_first = false`. -/
def decrypt_state (c : AesBlock) (rk : AesRoundKeys) : Nat → AesBlock
  | 0 => c.xor (rk.get 10)
  | n + 1 => decrypt_round (decrypt_state c rk n) (rk.get (9 - n)) false

/-! ## Reference definitions for the hexadecimal text -/

/-- The characters of `bytes_to_hex`, byte by byte: the high digit, then the low
digit. -/
def hex_chars : List Byte → List Char
  | [] => []
  | byte :: rest =>
    hex_char (byte.val / 16) :: hex_char (byte.val % 16) :: hex_chars rest

/-- A lower-case hexadecimal digit: `0` to `9` or `a` to `f`. -/
def is_lower_hex_digit (c : Char) : Bool :=
  (48 ≤ c.toNat && c.toNat ≤ 57) || (97 ≤ c.toNat && c.toNat ≤ 102)

/-- The bytes of a block, in index order. -/
def AesBlock.to_list (b : AesBlock) : List Byte :=
  (List.range AES_BLOCK_SIZE).map b.get

/-! ## Closed forms of the block operations

Each loop of the source runs over a fixed index range, so every block operation
has a closed form, cell by cell. -/

theorem AesBlock.xor_eq (b k : AesBlock) : b.xor k =
  ⟨b.d0 ^^^ k.d0, b.d1 ^^^ k.d1, b.d2 ^^^ k.d2, b.d3 ^^^ k.d3, b.d4 ^^^ k.d4, b.d5 ^^^ k.d5,
   b.d6 ^^^ k.d6, b.d7 ^^^ k.d7, b.d8 ^^^ k.d8, b.d9 ^^^ k.d9, b.d10 ^^^ k.d10,
   b.d11 ^^^ k.d11, b.d12 ^^^ k.d12, b.d13 ^^^ k.d13, b.d14 ^^^ k.d14, b.d15 ^^^ k.d15⟩ := rfl

theorem shift_rows_eq (b : AesBlock) : shift_rows b =
  ⟨b.d0, b.d5, b.d10, b.d15, b.d4, b.d9, b.d14, b.d3, b.d8, b.d13, b.d2, b.d7, b.d12, b.d1,
   b.d6, b.d11⟩ := rfl

theorem inv_shift_rows_eq (b : AesBlock) : inv_shift_rows b =
  ⟨b.d0, b.d13, b.d10, b.d7, b.d4, b.d1, b.d14, b.d11, b.d8, b.d5, b.d2, b.d15, b.d12, b.d9,
   b.d6, b.d3⟩ := rfl

theorem sub_bytes_eq (b : AesBlock) : sub_bytes b =
  ⟨substitute b.d0, substitute b.d1, substitute b.d2, substitute b.d3, substitute b.d4,
   substitute b.d5, substitute b.d6, substitute b.d7, substitute b.d8, substitute b.d9,
   substitute b.d10, substitute b.d11, substitute b.d12, substitute b.d13, substitute b.d14,
   substitute b.d15⟩ := rfl

theorem inv_sub_bytes_eq (b : AesBlock) : inv_sub_bytes b =
  ⟨inverse_substitute b.d0, inverse_substitute b.d1, inverse_substitute b.d2,
   inverse_substitute b.d3, inverse_substitute b.d4, inverse_substitute b.d5,
   inverse_substitute b.d6, inverse_substitute b.d7, inverse_substitute b.d8,
   inverse_substitute b.d9, inverse_substitute b.d10, inverse_substitute b.d11,
   inverse_substitute b.d12, inverse_substitute b.d13, inverse_substitute b.d14,
   inverse_substitute b.d15⟩ := rfl

theorem mix_columns_eq (b : AesBlock) : mix_columns b =
  ⟨gmul2 b.d0 ^^^ gmul3 b.d1 ^^^ b.d2 ^^^ b.d3, b.d0 ^^^ gmul2 b.d1 ^^^ gmul3 b.d2 ^^^ b.d3,
   b.d0 ^^^ b.d1 ^^^ gmul2 b.d2 ^^^ gmul3 b.d3, gmul3 b.d0 ^^^ b.d1 ^^^ b.d2 ^^^ gmul2 b.d3,
   gmul2 b.d4 ^^^ gmul3 b.d5 ^^^ b.d6 ^^^ b.d7, b.d4 ^^^ gmul2 b.d5 ^^^ gmul3 b.d6 ^^^ b.d7,
   b.d4 ^^^ b.d5 ^^^ gmul2 b.d6 ^^^ gmul3 b.d7, gmul3 b.d4 ^^^ b.d5 ^^^ b.d6 ^^^ gmul2 b.d7,
   gmul2 b.d8 ^^^ gmul3 b.d9 ^^^ b.d10 ^^^ b.d11,
   b.d8 ^^^ gmul2 b.d9 ^^^ gmul3 b.d10 ^^^ b.d11,
   b.d8 ^^^ b.d9 ^^^ gmul2 b.d10 ^^^ gmul3 b.d11,
   gmul3 b.d8 ^^^ b.d9 ^^^ b.d10 ^^^ gmul2 b.d11,
   gmul2 b.d12 ^^^ gmul3 b.d13 ^^^ b.d14 ^^^ b.d15,
   b.d12 ^^^ gmul2 b.d13 ^^^ gmul3 b.d14 ^^^ b.d15,
   b.d12 ^^^ b.d13 ^^^ gmul2 b.d14 ^^^ gmul3 b.d15,
   gmul3 b.d12 ^^^ b.d13 ^^^ b.d14 ^^^ gmul2 b.d15⟩ := rfl

theorem inv_mix_columns_eq (b : AesBlock) : inv_mix_columns b =
  ⟨gmul14 b.d0 ^^^ gmul11 b.d1 ^^^ gmul13 b.d2 ^^^ gmul9 b.d3,
   gmul9 b.d0 ^^^ gmul14 b.d1 ^^^ gmul11 b.d2 ^^^ gmul13 b.d3,
   gmul13 b.d0 ^^^ gmul9 b.d1 ^^^ gmul14 b.d2 ^^^ gmul11 b.d3,
   gmul11 b.d0 ^^^ gmul13 b.d1 ^^^ gmul9 b.d2 ^^^ gmul14 b.d3,
   gmul14 b.d4 ^^^ gmul11 b.d5 ^^^ gmul13 b.d6 ^^^ gmul9 b.d7,
   gmul9 b.d4 ^^^ gmul14 b.d5 ^^^ gmul11 b.d6 ^^^ gmul13 b.d7,
   gmul13 b.d4 ^^^ gmul9 b.d5 ^^^ gmul14 b.d6 ^^^ gmul11 b.d7,
   gmul11 b.d4 ^^^ gmul13 b.d5 ^^^ gmul9 b.d6 ^^^ gmul14 b.d7,
   gmul14 b.d8 ^^^ gmul11 b.d9 ^^^ gmul13 b.d10 ^^^ gmul9 b.d11,
   gmul9 b.d8 ^^^ gmul14 b.d9 ^^^ gmul11 b.d10 ^^^ gmul13 b.d11,
   gmul13 b.d8 ^^^ gmul9 b.d9 ^^^ gmul14 b.d10 ^^^ gmul11 b.d11,
   gmul11 b.d8 ^^^ gmul13 b.d9 ^^^ gmul9 b.d10 ^^^ gmul14 b.d11,
   gmul14 b.d12 ^^^ gmul11 b.d13 ^^^ gmul13 b.d14 ^^^ gmul9 b.d15,
   gmul9 b.d12 ^^^ gmul14 b.d13 ^^^ gmul11 b.d14 ^^^ gmul13 b.d15,
   gmul13 b.d12 ^^^ gmul9 b.d13 ^^^ gmul14 b.d14 ^^^ gmul11 b.d15,
   gmul11 b.d12 ^^^ gmul13 b.d13 ^^^ gmul9 b.d14 ^^^ gmul14 b.d15⟩ := rfl

/-! ## Bytes under exclusive or -/

theorem Byte.xor_val (a b : Byte) : (a ^^^ b).val = a.val ^^^ b.val := by
  have h : a.val ^^^ b.val < 2 ^ 8 := Nat.xor_lt_two_pow a.isLt b.isLt
  show (a.val ^^^ b.val) % 256 = a.val ^^^ b.val
  exact Nat.mod_eq_of_lt h

theorem Byte.xor_assoc (a b c : Byte) : a ^^^ b ^^^ c = a ^^^ (b ^^^ c) := by
  apply Fin.ext
  simp only [Byte.xor_val, Nat.xor_assoc]

theorem Byte.xor_comm (a b : Byte) : a ^^^ b = b ^^^ a := by
  apply Fin.ext
  simp only [Byte.xor_val, Nat.xor_comm]

theorem Byte.xor_self (a : Byte) : a ^^^ a = 0 := by
  apply Fin.ext
  simp only [Byte.xor_val, Nat.xor_self]
  rfl

theorem Byte.xor_zero (a : Byte) : a ^^^ 0 = a := by
  apply Fin.ext
  simp [Byte.xor_val]

theorem Byte.zero_xor (a : Byte) : 0 ^^^ a = a := by
  rw [Byte.xor_comm, Byte.xor_zero]

theorem Byte.xor_cancel_right (a k : Byte) : a ^^^ k ^^^ k = a := by
  rw [Byte.xor_assoc, Byte.xor_self, Byte.xor_zero]

/-- AddRoundKey with the same round key twice is the identity. -/
theorem AesBlock.xor_xor_cancel (b k : AesBlock) : (b.xor k).xor k = b := by
  cases b
  simp only [AesBlock.xor_eq, Byte.xor_cancel_right]

/-! ## Row rotation -/

theorem inv_shift_rows_shift_rows_eq (b : AesBlock) : inv_shift_rows (shift_rows b) = b := by
  cases b
  simp only [shift_rows_eq, inv_shift_rows_eq]

/-! ## Byte substitution -/

set_option maxRecDepth 100000 in
theorem inverse_substitute_substitute_eq : ∀ x : Byte, inverse_substitute (substitute x) = x := by
  decide!

theorem inv_sub_bytes_sub_bytes_eq (b : AesBlock) : inv_sub_bytes (sub_bytes b) = b := by
  cases b
  simp only [sub_bytes_eq, inv_sub_bytes_eq, inverse_substitute_substitute_eq]

/-! ## Column mixing: doubling is linear over exclusive or -/

theorem shl_xor_mod (m n : Nat) :
    (m ^^^ n) <<< 1 % 2 ^ 8 = (m <<< 1 % 2 ^ 8) ^^^ (n <<< 1 % 2 ^ 8) := by
  apply Nat.eq_of_testBit_eq
  intro i
  simp only [Nat.testBit_xor, Nat.testBit_shiftLeft, Nat.testBit_mod_two_pow]
  cases decide (i < 8) <;> cases decide (i ≥ 1) <;> simp

set_option maxRecDepth 100000 in
theorem gmul2_val : ∀ a : Byte,
    (gmul2 a).val = (a.val <<< 1 % 2 ^ 8) ^^^ (if a.val.testBit 7 then 27 else 0) := by
  decide!

theorem gmul2_xor (a b : Byte) : gmul2 (a ^^^ b) = gmul2 a ^^^ gmul2 b := by
  apply Fin.ext
  rw [Byte.xor_val, gmul2_val, gmul2_val, gmul2_val, Byte.xor_val, shl_xor_mod,
    Nat.testBit_xor]
  generalize a.val <<< 1 % 2 ^ 8 = x
  generalize b.val <<< 1 % 2 ^ 8 = y
  cases a.val.testBit 7 <;> cases b.val.testBit 7
  · simp
  · simp [Nat.xor_assoc]
  · simp only [Bool.true_xor, Bool.not_false, if_true, Bool.false_eq_true, if_false,
      Nat.xor_zero]
    rw [Nat.xor_assoc, Nat.xor_assoc, Nat.xor_comm y 27]
  · simp only [Bool.true_xor, Bool.not_true, if_true, Bool.false_eq_true, if_false,
      Nat.xor_zero]
    rw [Nat.xor_assoc x 27, ← Nat.xor_assoc 27 y, Nat.xor_comm 27 y, Nat.xor_assoc y,
      Nat.xor_self, Nat.xor_zero]

theorem gmul3_xor (a b : Byte) : gmul3 (a ^^^ b) = gmul3 a ^^^ gmul3 b := by
  haveI : Std.Associative (α := Byte) (· ^^^ ·) := ⟨Byte.xor_assoc⟩
  haveI : Std.Commutative (α := Byte) (· ^^^ ·) := ⟨Byte.xor_comm⟩
  simp only [gmul3, gmul2_xor]
  ac_rfl

theorem gmul9_xor (a b : Byte) : gmul9 (a ^^^ b) = gmul9 a ^^^ gmul9 b := by
  haveI : Std.Associative (α := Byte) (· ^^^ ·) := ⟨Byte.xor_assoc⟩
  haveI : Std.Commutative (α := Byte) (· ^^^ ·) := ⟨Byte.xor_comm⟩
  simp only [gmul9, gmul2_xor]
  ac_rfl

theorem gmul11_xor (a b : Byte) : gmul11 (a ^^^ b) = gmul11 a ^^^ gmul11 b := by
  haveI : Std.Associative (α := Byte) (· ^^^ ·) := ⟨Byte.xor_assoc⟩
  haveI : Std.Commutative (α := Byte) (· ^^^ ·) := ⟨Byte.xor_comm⟩
  simp only [gmul11, gmul2_xor]
  ac_rfl

theorem gmul13_xor (a b : Byte) : gmul13 (a ^^^ b) = gmul13 a ^^^ gmul13 b := by
  haveI : Std.Associative (α := Byte) (· ^^^ ·) := ⟨Byte.xor_assoc⟩
  haveI : Std.Commutative (α := Byte) (· ^^^ ·) := ⟨Byte.xor_comm⟩
  simp only [gmul13, gmul2_xor]
  ac_rfl

theorem gmul14_xor (a b : Byte) : gmul14 (a ^^^ b) = gmul14 a ^^^ gmul14 b := by
  haveI : Std.Associative (α := Byte) (· ^^^ ·) := ⟨Byte.xor_assoc⟩
  haveI : Std.Commutative (α := Byte) (· ^^^ ·) := ⟨Byte.xor_comm⟩
  simp only [gmul14, gmul2_xor]
  ac_rfl

/-! ## Column mixing: the product of the two matrices, entry by entry

Entry `(r, c)` of the product of the inverse matrix with the forward matrix, as
a map on one byte: the identity on the diagonal, zero elsewhere. -/

set_option maxRecDepth 100000 in
theorem inv_mix_diag : ∀ a : Byte,
    gmul14 (gmul2 a) ^^^ gmul11 a ^^^ gmul13 a ^^^ gmul9 (gmul3 a) = a := by
  decide!

set_option maxRecDepth 100000 in
theorem inv_mix_off1 : ∀ a : Byte,
    gmul14 (gmul3 a) ^^^ gmul11 (gmul2 a) ^^^ gmul13 a ^^^ gmul9 a = 0 := by
  decide!

set_option maxRecDepth 100000 in
theorem inv_mix_off2 : ∀ a : Byte,
    gmul14 a ^^^ gmul11 (gmul3 a) ^^^ gmul13 (gmul2 a) ^^^ gmul9 a = 0 := by
  decide!

set_option maxRecDepth 100000 in
theorem inv_mix_off3 : ∀ a : Byte,
    gmul14 a ^^^ gmul11 a ^^^ gmul13 (gmul3 a) ^^^ gmul9 (gmul2 a) = 0 := by
  decide!

/-- Row 0 of the inverse matrix applied to a mixed column. -/
theorem inv_mix_row0 (a0 a1 a2 a3 : Byte) :
    gmul14 (gmul2 a0 ^^^ gmul3 a1 ^^^ a2 ^^^ a3) ^^^ gmul11 (a0 ^^^ gmul2 a1 ^^^ gmul3 a2 ^^^ a3)
      ^^^ gmul13 (a0 ^^^ a1 ^^^ gmul2 a2 ^^^ gmul3 a3)
      ^^^ gmul9 (gmul3 a0 ^^^ a1 ^^^ a2 ^^^ gmul2 a3) = a0 := by
  haveI : Std.Associative (α := Byte) (· ^^^ ·) := ⟨Byte.xor_assoc⟩
  haveI : Std.Commutative (α := Byte) (· ^^^ ·) := ⟨Byte.xor_comm⟩
  calc _ = (gmul14 (gmul2 a0) ^^^ gmul11 a0 ^^^ gmul13 a0 ^^^ gmul9 (gmul3 a0))
        ^^^ (gmul14 (gmul3 a1) ^^^ gmul11 (gmul2 a1) ^^^ gmul13 a1 ^^^ gmul9 a1)
        ^^^ (gmul14 a2 ^^^ gmul11 (gmul3 a2) ^^^ gmul13 (gmul2 a2) ^^^ gmul9 a2)
        ^^^ (gmul14 a3 ^^^ gmul11 a3 ^^^ gmul13 (gmul3 a3) ^^^ gmul9 (gmul2 a3)) := by
        simp only [gmul14_xor, gmul11_xor, gmul13_xor, gmul9_xor]
        ac_rfl
    _ = a0 := by
        rw [inv_mix_diag, inv_mix_off1, inv_mix_off2, inv_mix_off3]
        simp only [Byte.xor_zero]

/-- Row 1 of the inverse matrix applied to a mixed column. -/
theorem inv_mix_row1 (a0 a1 a2 a3 : Byte) :
    gmul9 (gmul2 a0 ^^^ gmul3 a1 ^^^ a2 ^^^ a3) ^^^ gmul14 (a0 ^^^ gmul2 a1 ^^^ gmul3 a2 ^^^ a3)
      ^^^ gmul11 (a0 ^^^ a1 ^^^ gmul2 a2 ^^^ gmul3 a3)
      ^^^ gmul13 (gmul3 a0 ^^^ a1 ^^^ a2 ^^^ gmul2 a3) = a1 := by
  haveI : Std.Associative (α := Byte) (· ^^^ ·) := ⟨Byte.xor_assoc⟩
  haveI : Std.Commutative (α := Byte) (· ^^^ ·) := ⟨Byte.xor_comm⟩
  calc _ = (gmul14 a0 ^^^ gmul11 a0 ^^^ gmul13 (gmul3 a0) ^^^ gmul9 (gmul2 a0))
        ^^^ (gmul14 (gmul2 a1) ^^^ gmul11 a1 ^^^ gmul13 a1 ^^^ gmul9 (gmul3 a1))
        ^^^ (gmul14 (gmul3 a2) ^^^ gmul11 (gmul2 a2) ^^^ gmul13 a2 ^^^ gmul9 a2)
        ^^^ (gmul14 a3 ^^^ gmul11 (gmul3 a3) ^^^ gmul13 (gmul2 a3) ^^^ gmul9 a3) := by
        simp only [gmul14_xor, gmul11_xor, gmul13_xor, gmul9_xor]
        ac_rfl
    _ = a1 := by
        rw [inv_mix_diag, inv_mix_off1, inv_mix_off2, inv_mix_off3]
        simp only [Byte.xor_zero, Byte.zero_xor]

/-- Row 2 of the inverse matrix applied to a mixed column. -/
theorem inv_mix_row2 (a0 a1 a2 a3 : Byte) :
    gmul13 (gmul2 a0 ^^^ gmul3 a1 ^^^ a2 ^^^ a3) ^^^ gmul9 (a0 ^^^ gmul2 a1 ^^^ gmul3 a2 ^^^ a3)
      ^^^ gmul14 (a0 ^^^ a1 ^^^ gmul2 a2 ^^^ gmul3 a3)
      ^^^ gmul11 (gmul3 a0 ^^^ a1 ^^^ a2 ^^^ gmul2 a3) = a2 := by
  haveI : Std.Associative (α := Byte) (· ^^^ ·) := ⟨Byte.xor_assoc⟩
  haveI : Std.Commutative (α := Byte) (· ^^^ ·) := ⟨Byte.xor_comm⟩
  calc _ = (gmul14 a0 ^^^ gmul11 (gmul3 a0) ^^^ gmul13 (gmul2 a0) ^^^ gmul9 a0)
        ^^^ (gmul14 a1 ^^^ gmul11 a1 ^^^ gmul13 (gmul3 a1) ^^^ gmul9 (gmul2 a1))
        ^^^ (gmul14 (gmul2 a2) ^^^ gmul11 a2 ^^^ gmul13 a2 ^^^ gmul9 (gmul3 a2))
        ^^^ (gmul14 (gmul3 a3) ^^^ gmul11 (gmul2 a3) ^^^ gmul13 a3 ^^^ gmul9 a3) := by
        simp only [gmul14_xor, gmul11_xor, gmul13_xor, gmul9_xor]
        ac_rfl
    _ = a2 := by
        rw [inv_mix_diag, inv_mix_off1, inv_mix_off2, inv_mix_off3]
        simp only [Byte.xor_zero, Byte.zero_xor]

/-- Row 3 of the inverse matrix applied to a mixed column. -/
theorem inv_mix_row3 (a0 a1 a2 a3 : Byte) :
    gmul11 (gmul2 a0 ^^^ gmul3 a1 ^^^ a2 ^^^ a3) ^^^ gmul13 (a0 ^^^ gmul2 a1 ^^^ gmul3 a2 ^^^ a3)
      ^^^ gmul9 (a0 ^^^ a1 ^^^ gmul2 a2 ^^^ gmul3 a3)
      ^^^ gmul14 (gmul3 a0 ^^^ a1 ^^^ a2 ^^^ gmul2 a3) = a3 := by
  haveI : Std.Associative (α := Byte) (· ^^^ ·) := ⟨Byte.xor_assoc⟩
  haveI : Std.Commutative (α := Byte) (· ^^^ ·) := ⟨Byte.xor_comm⟩
  calc _ = (gmul14 (gmul3 a0) ^^^ gmul11 (gmul2 a0) ^^^ gmul13 a0 ^^^ gmul9 a0)
        ^^^ (gmul14 a1 ^^^ gmul11 (gmul3 a1) ^^^ gmul13 (gmul2 a1) ^^^ gmul9 a1)
        ^^^ (gmul14 a2 ^^^ gmul11 a2 ^^^ gmul13 (gmul3 a2) ^^^ gmul9 (gmul2 a2))
        ^^^ (gmul14 (gmul2 a3) ^^^ gmul11 a3 ^^^ gmul13 a3 ^^^ gmul9 (gmul3 a3)) := by
        simp only [gmul14_xor, gmul11_xor, gmul13_xor, gmul9_xor]
        ac_rfl
    _ = a3 := by
        rw [inv_mix_diag, inv_mix_off1, inv_mix_off2, inv_mix_off3]
        simp only [Byte.xor_zero, Byte.zero_xor]

theorem inv_mix_columns_mix_columns_eq (b : AesBlock) :
    inv_mix_columns (mix_columns b) = b := by
  cases b
  simp only [mix_columns_eq, inv_mix_columns_eq, inv_mix_row0, inv_mix_row1, inv_mix_row2,
    inv_mix_row3]

/-! ## One decryption round undoes one encryption round -/

/-- The first AddRoundKey of decryption removes the round key of the final
encryption round. -/
theorem final_round_xor (s k : AesBlock) :
    (encrypt_round s k true).xor k = shift_rows (sub_bytes s) := by
  simp only [encrypt_round, if_true, AesBlock.xor_xor_cancel]

/-- A middle decryption round, run on the rotated and substituted output of the
encryption round with the same key, gives back the rotated and substituted
input of that encryption round. -/
theorem decrypt_round_encrypt_round (s k : AesBlock) :
    decrypt_round (shift_rows (sub_bytes (encrypt_round s k false))) k false
      = shift_rows (sub_bytes s) := by
  simp only [decrypt_round, encrypt_round, Bool.false_eq_true, if_false,
    inv_shift_rows_shift_rows_eq, inv_sub_bytes_sub_bytes_eq, AesBlock.xor_xor_cancel,
    inv_mix_columns_mix_columns_eq]

/-- The last decryption round undoes the initial AddRoundKey of encryption. -/
theorem decrypt_round_first (p k : AesBlock) :
    decrypt_round (shift_rows (sub_bytes (p.xor k))) k true = p := by
  simp only [decrypt_round, if_true, inv_shift_rows_shift_rows_eq,
    inv_sub_bytes_sub_bytes_eq, AesBlock.xor_xor_cancel]

/-- Running the middle decryption rounds over the keys of the middle encryption
rounds, in reverse order, peels those encryption rounds off one by one. -/
theorem decrypt_rounds_encrypt_rounds (rk : AesRoundKeys) (ks : List Nat) :
    ∀ s : AesBlock,
      ks.reverse.foldl (fun block i => decrypt_round block (rk.get i) false)
          (shift_rows (sub_bytes
            (ks.foldl (fun block i => encrypt_round block (rk.get i) false) s)))
        = shift_rows (sub_bytes s) := by
  induction ks with
  | nil => intro s; rfl
  | cons i t ih =>
    intro s
    rw [List.reverse_cons, List.foldl_append, List.foldl_cons, List.foldl_cons, List.foldl_nil,
      ih, decrypt_round_encrypt_round]

/-- Decryption undoes encryption under any schedule of eleven round keys. -/
theorem decrypt_encrypt_round_keys (p : AesBlock) (rk : AesRoundKeys) (d d' : Nat) :
    (process_non_pipelined (process_non_pipelined p rk AesOperation.ENCRYPT d).1 rk
      AesOperation.DECRYPT d').1 = p := by
  simp only [process_non_pipelined, if_true, reduceCtorEq, if_false]
  rw [final_round_xor, decrypt_rounds_encrypt_rounds, decrypt_round_first]

/-! ## Helper lemmas for the claims -/

/-- The block that `process_non_pipelined` returns does not depend on the delay
it is given. -/
theorem process_non_pipelined_fst (block : AesBlock) (rk : AesRoundKeys) (op : AesOperation)
    (d : Nat) :
    (process_non_pipelined block rk op d).1 = (process_non_pipelined block rk op 0).1 := by
  unfold process_non_pipelined
  split <;> rfl

set_option maxRecDepth 100000 in
theorem substitute_inverse_substitute_eq :
    ∀ x : Byte, substitute (inverse_substitute x) = x := by
  decide!

theorem substitute_bijective : Function.Bijective substitute :=
  ⟨Function.LeftInverse.injective inverse_substitute_substitute_eq,
   Function.RightInverse.surjective substitute_inverse_substitute_eq⟩

set_option maxRecDepth 100000 in
theorem substitute_inv_affine : ∀ x : Byte,
    ((x = 0 ∧ fips197_inv_affine (substitute x) = 0)
        ∨ gf_mul x (fips197_inv_affine (substitute x)) = 1)
      ∧ substitute x = fips197_affine (fips197_inv_affine (substitute x)) := by
  decide!

/-- Every entry of the forward table is the FIPS-197 S-box value of its index. -/
theorem substitute_isFips197SBox (x : Byte) : IsFips197SBox x (substitute x) :=
  ⟨fips197_inv_affine (substitute x), substitute_inv_affine x⟩

theorem expand_key_round_eq (rk : AesRoundKeys) (i : Nat) :
    expand_key_round rk i = rk.set i (next_round_key (rk.get (i - 1)) i) := by
  rfl

theorem expand_key_init (key : AesKey) (r : AesRoundKeys) :
    (List.range AES_KEY_SIZE).foldl
      (fun round_keys i => round_keys.set 0 ((round_keys.get 0).set i (key.key.get i))) r
    = r.set 0 key.key := by
  rfl


theorem range_key_rounds : List.range' 1 AES_NUM_ROUNDS = [1, 2, 3, 4, 5, 6, 7, 8, 9, 10] := by
  decide

/-- All eleven round keys that `expand_key` leaves, whatever the array held
before. -/
theorem expand_key_eq (key : AesKey) (r : AesRoundKeys) :
    expand_key key r =
      ⟨round_key key 0, round_key key 1, round_key key 2, round_key key 3, round_key key 4,
       round_key key 5, round_key key 6, round_key key 7, round_key key 8, round_key key 9,
       round_key key 10⟩ := by
  obtain ⟨r0, r1, r2, r3, r4, r5, r6, r7, r8, r9, r10⟩ := r
  have h0 : AesRoundKeys.set ⟨r0, r1, r2, r3, r4, r5, r6, r7, r8, r9, r10⟩ 0 key.key
      = ⟨round_key key 0, r1, r2, r3, r4, r5, r6, r7, r8, r9, r10⟩ := rfl
  have h1 : expand_key_round
      (⟨round_key key 0, r1, r2, r3, r4, r5, r6, r7, r8, r9, r10⟩ : AesRoundKeys) 1
      = ⟨round_key key 0, round_key key 1, r2, r3, r4, r5, r6, r7, r8, r9, r10⟩ := by
    rw [expand_key_round_eq]
    rfl
  have h2 : expand_key_round
      (⟨round_key key 0, round_key key 1, r2, r3, r4, r5, r6, r7, r8, r9, r10⟩ : AesRoundKeys) 2
      = ⟨round_key key 0, round_key key 1, round_key key 2, r3, r4, r5, r6, r7, r8, r9, r10⟩ := by
    rw [expand_key_round_eq]
    rfl
  have h3 : expand_key_round
      (⟨round_key key 0, round_key key 1, round_key key 2, r3, r4, r5, r6, r7, r8, r9, r10⟩ : AesRoundKeys) 3
      = ⟨round_key key 0, round_key key 1, round_key key 2, round_key key 3, r4, r5, r6, r7,
        r8, r9, r10⟩ := by
    rw [expand_key_round_eq]
    rfl
  have h4 : expand_key_round
      (⟨round_key key 0, round_key key 1, round_key key 2, round_key key 3, r4, r5, r6, r7,
       r8, r9, r10⟩ : AesRoundKeys) 4
      = ⟨round_key key 0, round_key key 1, round_key key 2, round_key key 3, round_key key
        4, r5, r6, r7, r8, r9, r10⟩ := by
    rw [expand_key_round_eq]
    rfl
  have h5 : expand_key_round
      (⟨round_key key 0, round_key key 1, round_key key 2, round_key key 3, round_key key 4,
       r5, r6, r7, r8, r9, r10⟩ : AesRoundKeys) 5
      = ⟨round_key key 0, round_key key 1, round_key key 2, round_key key 3, round_key key
        4, round_key key 5, r6, r7, r8, r9, r10⟩ := by
    rw [expand_key_round_eq]
    rfl
  have h6 : expand_key_round
      (⟨round_key key 0, round_key key 1, round_key key 2, round_key key 3, round_key key 4,
       round_key key 5, r6, r7, r8, r9, r10⟩ : AesRoundKeys) 6
      = ⟨round_key key 0, round_key key 1, round_key key 2, round_key key 3, round_key key
        4, round_key key 5, round_key key 6, r7, r8, r9, r10⟩ := by
    rw [expand_key_round_eq]
    rfl
  have h7 : expand_key_round
      (⟨round_key key 0, round_key key 1, round_key key 2, round_key key 3, round_key key 4,
       round_key key 5, round_key key 6, r7, r8, r9, r10⟩ : AesRoundKeys) 7
      = ⟨round_key key 0, round_key key 1, round_key key 2, round_key key 3, round_key key
        4, round_key key 5, round_key key 6, round_key key 7, r8, r9, r10⟩ := by
    rw [expand_key_round_eq]
    rfl
  have h8 : expand_key_round
      (⟨round_key key 0, round_key key 1, round_key key 2, round_key key 3, round_key key 4,
       round_key key 5, round_key key 6, round_key key 7, r8, r9, r10⟩ : AesRoundKeys) 8
      = ⟨round_key key 0, round_key key 1, round_key key 2, round_key key 3, round_key key
        4, round_key key 5, round_key key 6, round_key key 7, round_key key 8, r9, r10⟩ := by
    rw [expand_key_round_eq]
    rfl
  have h9 : expand_key_round
      (⟨round_key key 0, round_key key 1, round_key key 2, round_key key 3, round_key key 4,
       round_key key 5, round_key key 6, round_key key 7, round_key key 8, r9, r10⟩ : AesRoundKeys) 9
      = ⟨round_key key 0, round_key key 1, round_key key 2, round_key key 3, round_key key
        4, round_key key 5, round_key key 6, round_key key 7, round_key key 8, round_key key
        9, r10⟩ := by
    rw [expand_key_round_eq]
    rfl
  have h10 : expand_key_round
      (⟨round_key key 0, round_key key 1, round_key key 2, round_key key 3, round_key key 4,
       round_key key 5, round_key key 6, round_key key 7, round_key key 8, round_key key 9,
       r10⟩ : AesRoundKeys) 10
      = ⟨round_key key 0, round_key key 1, round_key key 2, round_key key 3, round_key key
        4, round_key key 5, round_key key 6, round_key key 7, round_key key 8, round_key key
        9, round_key key 10⟩ := by
    rw [expand_key_round_eq]
    rfl
  unfold expand_key
  simp only [expand_key_init, range_key_rounds, List.foldl_cons, List.foldl_nil]
  rw [h0, h1, h2, h3, h4, h5, h6, h7, h8, h9, h10]

theorem expand_key_get (key : AesKey) (r : AesRoundKeys) (i : Nat) (hi : i ≤ 10) :
    (expand_key key r).get i = round_key key i := by
  rw [expand_key_eq]
  interval_cases i <;> rfl

/-- One pass of the loop, word by word, in the wording of section 4.4. -/
theorem next_round_key_words (prev : AesBlock) (i : Nat) :
    word (next_round_key prev i) 0
        = xor_word (word prev 0)
            (xor_first (sub_word (rot_word (word prev 3))) (rcon.getD (i - 1) 0))
      ∧ word (next_round_key prev i) 1
        = xor_word (word prev 1) (word (next_round_key prev i) 0)
      ∧ word (next_round_key prev i) 2
        = xor_word (word prev 2) (word (next_round_key prev i) 1)
      ∧ word (next_round_key prev i) 3
        = xor_word (word prev 3) (word (next_round_key prev i) 2) := by
  cases prev
  refine ⟨rfl, rfl, rfl, rfl⟩

/-! ## Column mixing as a matrix product -/

set_option maxRecDepth 100000 in
/-- The doubling and tripling of the source are the field products by 2 and 3. -/
theorem gf_mul_forward : ∀ a : Byte,
    gf_mul 1 a = a ∧ gf_mul 2 a = gmul2 a ∧ gf_mul 3 a = gmul3 a := by
  decide!

set_option maxRecDepth 100000 in
/-- The four multipliers of the inverse transformation are the field products
by 9, 11, 13 and 14. -/
theorem gf_mul_inverse : ∀ a : Byte,
    gf_mul 9 a = gmul9 a ∧ gf_mul 11 a = gmul11 a ∧ gf_mul 13 a = gmul13 a
      ∧ gf_mul 14 a = gmul14 a := by
  decide!

theorem mix_columns_word (b : AesBlock) (i : Fin 4) :
    word (mix_columns b) i.val = gf_mat_vec mix_matrix (word b i.val) := by
  cases b
  fin_cases i <;>
    simp [word, mix_columns_eq, gf_mat_vec, mix_matrix, gf_dot, AesBlock.get,
      (gf_mul_forward _).1, (gf_mul_forward _).2.1, (gf_mul_forward _).2.2, Byte.zero_xor]

theorem inv_mix_columns_word (b : AesBlock) (i : Fin 4) :
    word (inv_mix_columns b) i.val = gf_mat_vec inv_mix_matrix (word b i.val) := by
  cases b
  fin_cases i <;>
    simp [word, inv_mix_columns_eq, gf_mat_vec, inv_mix_matrix, gf_dot, AesBlock.get,
      (gf_mul_inverse _).1, (gf_mul_inverse _).2.1, (gf_mul_inverse _).2.2.1,
      (gf_mul_inverse _).2.2.2, Byte.zero_xor]

/-! ## Row rotation, cell by cell -/

theorem lt_four (r : Nat) (h : r < 4) : r = 0 ∨ r = 1 ∨ r = 2 ∨ r = 3 := by
  omega

/-- Cell `r + 4c` of `shift_rows b`, for each of the sixteen pairs of a row and a
column; both sides are compared with the same field of `b`. -/
theorem shift_rows_get (b : AesBlock) (r c : Nat) (hr : r < 4) (hc : c < 4) :
    (shift_rows b).get (r + 4 * c) = b.get (r + 4 * ((c + r) % 4)) := by
  rcases lt_four r hr with rfl | rfl | rfl | rfl <;>
    rcases lt_four c hc with rfl | rfl | rfl | rfl
  · exact @Eq.trans _ _ b.d0 _ rfl rfl
  · exact @Eq.trans _ _ b.d4 _ rfl rfl
  · exact @Eq.trans _ _ b.d8 _ rfl rfl
  · exact @Eq.trans _ _ b.d12 _ rfl rfl
  · exact @Eq.trans _ _ b.d5 _ rfl rfl
  · exact @Eq.trans _ _ b.d9 _ rfl rfl
  · exact @Eq.trans _ _ b.d13 _ rfl rfl
  · exact @Eq.trans _ _ b.d1 _ rfl rfl
  · exact @Eq.trans _ _ b.d10 _ rfl rfl
  · exact @Eq.trans _ _ b.d14 _ rfl rfl
  · exact @Eq.trans _ _ b.d2 _ rfl rfl
  · exact @Eq.trans _ _ b.d6 _ rfl rfl
  · exact @Eq.trans _ _ b.d15 _ rfl rfl
  · exact @Eq.trans _ _ b.d3 _ rfl rfl
  · exact @Eq.trans _ _ b.d7 _ rfl rfl
  · exact @Eq.trans _ _ b.d11 _ rfl rfl

/-- Cell `r + 4((c + r) mod 4)` of `inv_shift_rows b`, for each of the sixteen pairs
of a row and a column. -/
theorem inv_shift_rows_get (b : AesBlock) (r c : Nat) (hr : r < 4) (hc : c < 4) :
    (inv_shift_rows b).get (r + 4 * ((c + r) % 4)) = b.get (r + 4 * c) := by
  rcases lt_four r hr with rfl | rfl | rfl | rfl <;>
    rcases lt_four c hc with rfl | rfl | rfl | rfl
  · exact @Eq.trans _ _ b.d0 _ rfl rfl
  · exact @Eq.trans _ _ b.d4 _ rfl rfl
  · exact @Eq.trans _ _ b.d8 _ rfl rfl
  · exact @Eq.trans _ _ b.d12 _ rfl rfl
  · exact @Eq.trans _ _ b.d1 _ rfl rfl
  · exact @Eq.trans _ _ b.d5 _ rfl rfl
  · exact @Eq.trans _ _ b.d9 _ rfl rfl
  · exact @Eq.trans _ _ b.d13 _ rfl rfl
  · exact @Eq.trans _ _ b.d2 _ rfl rfl
  · exact @Eq.trans _ _ b.d6 _ rfl rfl
  · exact @Eq.trans _ _ b.d10 _ rfl rfl
  · exact @Eq.trans _ _ b.d14 _ rfl rfl
  · exact @Eq.trans _ _ b.d3 _ rfl rfl
  · exact @Eq.trans _ _ b.d7 _ rfl rfl
  · exact @Eq.trans _ _ b.d11 _ rfl rfl
  · exact @Eq.trans _ _ b.d15 _ rfl rfl

/-! ## The round sequences of `process_non_pipelined` -/

theorem range_middle_rounds :
    List.range' 1 (AES_NUM_ROUNDS - 1) = [1, 2, 3, 4, 5, 6, 7, 8, 9] := by
  decide

/-- The steps of `process_non_pipelined`, run one after the other, give the
block that `process_non_pipelined` returns. -/
theorem calls_run (block : AesBlock) (rk : AesRoundKeys) (op : AesOperation) (d : Nat) :
    (process_non_pipelined_calls op).foldl (RoundCall.run rk) block
      = (process_non_pipelined block rk op d).1 := by
  cases op <;>
    simp only [process_non_pipelined_calls, process_non_pipelined, if_true, reduceCtorEq,
      if_false, List.foldl_append, List.foldl_map, List.foldl_cons, List.foldl_nil,
      RoundCall.run]

theorem encrypt_calls_eq :
    process_non_pipelined_calls AesOperation.ENCRYPT
      = [RoundCall.add_round_key 0, RoundCall.encrypt_round 1 false,
         RoundCall.encrypt_round 2 false, RoundCall.encrypt_round 3 false,
         RoundCall.encrypt_round 4 false, RoundCall.encrypt_round 5 false,
         RoundCall.encrypt_round 6 false, RoundCall.encrypt_round 7 false,
         RoundCall.encrypt_round 8 false, RoundCall.encrypt_round 9 false,
         RoundCall.encrypt_round 10 true] := by
  decide

theorem decrypt_calls_eq :
    process_non_pipelined_calls AesOperation.DECRYPT
      = [RoundCall.add_round_key 10, RoundCall.decrypt_round 9 false,
         RoundCall.decrypt_round 8 false, RoundCall.decrypt_round 7 false,
         RoundCall.decrypt_round 6 false, RoundCall.decrypt_round 5 false,
         RoundCall.decrypt_round 4 false, RoundCall.decrypt_round 3 false,
         RoundCall.decrypt_round 2 false, RoundCall.decrypt_round 1 false,
         RoundCall.decrypt_round 0 true] := by
  decide

theorem middle_rounds_eq : AES_NUM_ROUNDS - 1 = 9 := rfl

/-- The loop over rounds `1..n` of the `ENCRYPT` branch computes `s_n`. -/
theorem foldl_encrypt_state (p : AesBlock) (rk : AesRoundKeys) (n : Nat) :
    (List.range' 1 n).foldl (fun block i => encrypt_round block (rk.get i) false)
        (p.xor (rk.get 0))
      = encrypt_state p rk n := by
  induction n with
  | zero => rfl
  | succ n ih =>
    rw [List.range'_concat, List.foldl_append, ih, List.foldl_cons, List.foldl_nil,
      Nat.one_mul, Nat.add_comm 1 n]
    rfl

/-- The loop over rounds `9` down to `10 - n` of the `DECRYPT` branch computes the
state after `n` rounds. -/
theorem foldl_decrypt_state (c : AesBlock) (rk : AesRoundKeys) (n : Nat) (hn : n ≤ 9) :
    (List.range' (10 - n) n).reverse.foldl
        (fun block i => decrypt_round block (rk.get i) false) (c.xor (rk.get 10))
      = decrypt_state c rk n := by
  induction n with
  | zero => rfl
  | succ n ih =>
    have h1 : 10 - (n + 1) = 9 - n := by omega
    have h2 : 9 - n + 1 = 10 - n := by omega
    rw [h1, List.range'_succ, List.reverse_cons, List.foldl_append, h2, ih (by omega),
      List.foldl_cons, List.foldl_nil]
    rfl

theorem encrypt_path_eq (p : AesBlock) (rk : AesRoundKeys) (d : Nat) :
    (process_non_pipelined p rk AesOperation.ENCRYPT d).1
      = encrypt_round (encrypt_state p rk 9) (rk.get 10) true := by
  simp only [process_non_pipelined, if_true]
  rw [middle_rounds_eq, foldl_encrypt_state]
  rfl

theorem decrypt_path_eq (c : AesBlock) (rk : AesRoundKeys) (d : Nat) :
    (process_non_pipelined c rk AesOperation.DECRYPT d).1
      = decrypt_round (decrypt_state c rk 9) (rk.get 0) true := by
  simp only [process_non_pipelined, reduceCtorEq, if_false]
  rw [middle_rounds_eq]
  exact congrArg (fun t => decrypt_round t (rk.get 0) true)
    (foldl_decrypt_state c rk 9 (Nat.le_refl 9))

/-! ## Row rotation and byte substitution in the other order -/

theorem shift_rows_inv_shift_rows_eq (b : AesBlock) : shift_rows (inv_shift_rows b) = b := by
  cases b
  simp only [shift_rows_eq, inv_shift_rows_eq]

theorem sub_bytes_inv_sub_bytes_eq (b : AesBlock) : sub_bytes (inv_sub_bytes b) = b := by
  cases b
  simp only [sub_bytes_eq, inv_sub_bytes_eq, substitute_inverse_substitute_eq]

/-! ## Column mixing: the product of the two matrices in the other order -/

set_option maxRecDepth 100000 in
/-- Row 0 of the forward matrix times each column of the inverse matrix, as
maps on one byte. -/
theorem mix_inv_entries0 : ∀ a : Byte,
    (gmul2 (gmul14 a) ^^^ gmul3 (gmul9 a) ^^^ gmul13 a ^^^ gmul11 a = a)
      ∧ (gmul2 (gmul11 a) ^^^ gmul3 (gmul14 a) ^^^ gmul9 a ^^^ gmul13 a = 0)
      ∧ (gmul2 (gmul13 a) ^^^ gmul3 (gmul11 a) ^^^ gmul14 a ^^^ gmul9 a = 0)
      ∧ (gmul2 (gmul9 a) ^^^ gmul3 (gmul13 a) ^^^ gmul11 a ^^^ gmul14 a = 0) := by
  decide!

set_option maxRecDepth 100000 in
/-- Row 1 of the forward matrix times each column of the inverse matrix, as
maps on one byte. -/
theorem mix_inv_entries1 : ∀ a : Byte,
    (gmul14 a ^^^ gmul2 (gmul9 a) ^^^ gmul3 (gmul13 a) ^^^ gmul11 a = 0)
      ∧ (gmul11 a ^^^ gmul2 (gmul14 a) ^^^ gmul3 (gmul9 a) ^^^ gmul13 a = a)
      ∧ (gmul13 a ^^^ gmul2 (gmul11 a) ^^^ gmul3 (gmul14 a) ^^^ gmul9 a = 0)
      ∧ (gmul9 a ^^^ gmul2 (gmul13 a) ^^^ gmul3 (gmul11 a) ^^^ gmul14 a = 0) := by
  decide!

set_option maxRecDepth 100000 in
/-- Row 2 of the forward matrix times each column of the inverse matrix, as
maps on one byte. -/
theorem mix_inv_entries2 : ∀ a : Byte,
    (gmul14 a ^^^ gmul9 a ^^^ gmul2 (gmul13 a) ^^^ gmul3 (gmul11 a) = 0)
      ∧ (gmul11 a ^^^ gmul14 a ^^^ gmul2 (gmul9 a) ^^^ gmul3 (gmul13 a) = 0)
      ∧ (gmul13 a ^^^ gmul11 a ^^^ gmul2 (gmul14 a) ^^^ gmul3 (gmul9 a) = a)
      ∧ (gmul9 a ^^^ gmul13 a ^^^ gmul2 (gmul11 a) ^^^ gmul3 (gmul14 a) = 0) := by
  decide!

set_option maxRecDepth 100000 in
/-- Row 3 of the forward matrix times each column of the inverse matrix, as
maps on one byte. -/
theorem mix_inv_entries3 : ∀ a : Byte,
    (gmul3 (gmul14 a) ^^^ gmul9 a ^^^ gmul13 a ^^^ gmul2 (gmul11 a) = 0)
      ∧ (gmul3 (gmul11 a) ^^^ gmul14 a ^^^ gmul9 a ^^^ gmul2 (gmul13 a) = 0)
      ∧ (gmul3 (gmul13 a) ^^^ gmul11 a ^^^ gmul14 a ^^^ gmul2 (gmul9 a) = 0)
      ∧ (gmul3 (gmul9 a) ^^^ gmul13 a ^^^ gmul11 a ^^^ gmul2 (gmul14 a) = a) := by
  decide!

/-- Row 0 of the forward matrix applied to an inversely mixed column. -/
theorem mix_inv_row0 (a0 a1 a2 a3 : Byte) :
    gmul2 (gmul14 a0 ^^^ gmul11 a1 ^^^ gmul13 a2 ^^^ gmul9 a3)
      ^^^ gmul3 (gmul9 a0 ^^^ gmul14 a1 ^^^ gmul11 a2 ^^^ gmul13 a3)
      ^^^ (gmul13 a0 ^^^ gmul9 a1 ^^^ gmul14 a2 ^^^ gmul11 a3)
      ^^^ (gmul11 a0 ^^^ gmul13 a1 ^^^ gmul9 a2 ^^^ gmul14 a3) = a0 := by
  haveI : Std.Associative (α := Byte) (· ^^^ ·) := ⟨Byte.xor_assoc⟩
  haveI : Std.Commutative (α := Byte) (· ^^^ ·) := ⟨Byte.xor_comm⟩
  calc _ = (gmul2 (gmul14 a0) ^^^ gmul3 (gmul9 a0) ^^^ gmul13 a0 ^^^ gmul11 a0)
        ^^^ (gmul2 (gmul11 a1) ^^^ gmul3 (gmul14 a1) ^^^ gmul9 a1 ^^^ gmul13 a1)
        ^^^ (gmul2 (gmul13 a2) ^^^ gmul3 (gmul11 a2) ^^^ gmul14 a2 ^^^ gmul9 a2)
        ^^^ (gmul2 (gmul9 a3) ^^^ gmul3 (gmul13 a3) ^^^ gmul11 a3 ^^^ gmul14 a3) := by
        simp only [gmul2_xor, gmul3_xor]
        ac_rfl
    _ = a0 := by
        rw [(mix_inv_entries0 a0).1, (mix_inv_entries0 a1).2.1, (mix_inv_entries0 a2).2.2.1,
          (mix_inv_entries0 a3).2.2.2]
        simp only [Byte.xor_zero, Byte.zero_xor]

/-- Row 1 of the forward matrix applied to an inversely mixed column. -/
theorem mix_inv_row1 (a0 a1 a2 a3 : Byte) :
    (gmul14 a0 ^^^ gmul11 a1 ^^^ gmul13 a2 ^^^ gmul9 a3)
      ^^^ gmul2 (gmul9 a0 ^^^ gmul14 a1 ^^^ gmul11 a2 ^^^ gmul13 a3)
      ^^^ gmul3 (gmul13 a0 ^^^ gmul9 a1 ^^^ gmul14 a2 ^^^ gmul11 a3)
      ^^^ (gmul11 a0 ^^^ gmul13 a1 ^^^ gmul9 a2 ^^^ gmul14 a3) = a1 := by
  haveI : Std.Associative (α := Byte) (· ^^^ ·) := ⟨Byte.xor_assoc⟩
  haveI : Std.Commutative (α := Byte) (· ^^^ ·) := ⟨Byte.xor_comm⟩
  calc _ = (gmul14 a0 ^^^ gmul2 (gmul9 a0) ^^^ gmul3 (gmul13 a0) ^^^ gmul11 a0)
        ^^^ (gmul11 a1 ^^^ gmul2 (gmul14 a1) ^^^ gmul3 (gmul9 a1) ^^^ gmul13 a1)
        ^^^ (gmul13 a2 ^^^ gmul2 (gmul11 a2) ^^^ gmul3 (gmul14 a2) ^^^ gmul9 a2)
        ^^^ (gmul9 a3 ^^^ gmul2 (gmul13 a3) ^^^ gmul3 (gmul11 a3) ^^^ gmul14 a3) := by
        simp only [gmul2_xor, gmul3_xor]
        ac_rfl
    _ = a1 := by
        rw [(mix_inv_entries1 a0).1, (mix_inv_entries1 a1).2.1, (mix_inv_entries1 a2).2.2.1,
          (mix_inv_entries1 a3).2.2.2]
        simp only [Byte.xor_zero, Byte.zero_xor]

/-- Row 2 of the forward matrix applied to an inversely mixed column. -/
theorem mix_inv_row2 (a0 a1 a2 a3 : Byte) :
    (gmul14 a0 ^^^ gmul11 a1 ^^^ gmul13 a2 ^^^ gmul9 a3)
      ^^^ (gmul9 a0 ^^^ gmul14 a1 ^^^ gmul11 a2 ^^^ gmul13 a3)
      ^^^ gmul2 (gmul13 a0 ^^^ gmul9 a1 ^^^ gmul14 a2 ^^^ gmul11 a3)
      ^^^ gmul3 (gmul11 a0 ^^^ gmul13 a1 ^^^ gmul9 a2 ^^^ gmul14 a3) = a2 := by
  haveI : Std.Associative (α := Byte) (· ^^^ ·) := ⟨Byte.xor_assoc⟩
  haveI : Std.Commutative (α := Byte) (· ^^^ ·) := ⟨Byte.xor_comm⟩
  calc _ = (gmul14 a0 ^^^ gmul9 a0 ^^^ gmul2 (gmul13 a0) ^^^ gmul3 (gmul11 a0))
        ^^^ (gmul11 a1 ^^^ gmul14 a1 ^^^ gmul2 (gmul9 a1) ^^^ gmul3 (gmul13 a1))
        ^^^ (gmul13 a2 ^^^ gmul11 a2 ^^^ gmul2 (gmul14 a2) ^^^ gmul3 (gmul9 a2))
        ^^^ (gmul9 a3 ^^^ gmul13 a3 ^^^ gmul2 (gmul11 a3) ^^^ gmul3 (gmul14 a3)) := by
        simp only [gmul2_xor, gmul3_xor]
        ac_rfl
    _ = a2 := by
        rw [(mix_inv_entries2 a0).1, (mix_inv_entries2 a1).2.1, (mix_inv_entries2 a2).2.2.1,
          (mix_inv_entries2 a3).2.2.2]
        simp only [Byte.xor_zero, Byte.zero_xor]

/-- Row 3 of the forward matrix applied to an inversely mixed column. -/
theorem mix_inv_row3 (a0 a1 a2 a3 : Byte) :
    gmul3 (gmul14 a0 ^^^ gmul11 a1 ^^^ gmul13 a2 ^^^ gmul9 a3)
      ^^^ (gmul9 a0 ^^^ gmul14 a1 ^^^ gmul11 a2 ^^^ gmul13 a3)
      ^^^ (gmul13 a0 ^^^ gmul9 a1 ^^^ gmul14 a2 ^^^ gmul11 a3)
      ^^^ gmul2 (gmul11 a0 ^^^ gmul13 a1 ^^^ gmul9 a2 ^^^ gmul14 a3) = a3 := by
  haveI : Std.Associative (α := Byte) (· ^^^ ·) := ⟨Byte.xor_assoc⟩
  haveI : Std.Commutative (α := Byte) (· ^^^ ·) := ⟨Byte.xor_comm⟩
  calc _ = (gmul3 (gmul14 a0) ^^^ gmul9 a0 ^^^ gmul13 a0 ^^^ gmul2 (gmul11 a0))
        ^^^ (gmul3 (gmul11 a1) ^^^ gmul14 a1 ^^^ gmul9 a1 ^^^ gmul2 (gmul13 a1))
        ^^^ (gmul3 (gmul13 a2) ^^^ gmul11 a2 ^^^ gmul14 a2 ^^^ gmul2 (gmul9 a2))
        ^^^ (gmul3 (gmul9 a3) ^^^ gmul13 a3 ^^^ gmul11 a3 ^^^ gmul2 (gmul14 a3)) := by
        simp only [gmul2_xor, gmul3_xor]
        ac_rfl
    _ = a3 := by
        rw [(mix_inv_entries3 a0).1, (mix_inv_entries3 a1).2.1, (mix_inv_entries3 a2).2.2.1,
          (mix_inv_entries3 a3).2.2.2]
        simp only [Byte.xor_zero, Byte.zero_xor]

theorem mix_columns_inv_mix_columns_eq (b : AesBlock) :
    mix_columns (inv_mix_columns b) = b := by
  cases b
  simp only [mix_columns_eq, inv_mix_columns_eq, mix_inv_row0, mix_inv_row1, mix_inv_row2,
    mix_inv_row3]

/-! ## One encryption round undoes one decryption round -/

/-- The first AddRoundKey of encryption removes the round key of the last
decryption round. -/
theorem first_round_xor (t k : AesBlock) :
    (decrypt_round t k true).xor k = inv_sub_bytes (inv_shift_rows t) := by
  simp only [decrypt_round, if_true, AesBlock.xor_xor_cancel]

/-- A middle encryption round, run on the inversely substituted and rotated
output of the decryption round with the same key, gives back the inversely
substituted and rotated input of that decryption round. -/
theorem encrypt_round_decrypt_round (t k : AesBlock) :
    encrypt_round (inv_sub_bytes (inv_shift_rows (decrypt_round t k false))) k false
      = inv_sub_bytes (inv_shift_rows t) := by
  simp only [decrypt_round, encrypt_round, Bool.false_eq_true, if_false,
    sub_bytes_inv_sub_bytes_eq, shift_rows_inv_shift_rows_eq,
    mix_columns_inv_mix_columns_eq, AesBlock.xor_xor_cancel]

/-- The final encryption round undoes the initial AddRoundKey of decryption. -/
theorem encrypt_round_final (c k : AesBlock) :
    encrypt_round (inv_sub_bytes (inv_shift_rows (c.xor k))) k true = c := by
  simp only [encrypt_round, if_true, sub_bytes_inv_sub_bytes_eq,
    shift_rows_inv_shift_rows_eq, AesBlock.xor_xor_cancel]

/-- Running the middle encryption rounds over the keys of the middle decryption
rounds, in reverse order, peels those decryption rounds off one by one. -/
theorem encrypt_rounds_decrypt_rounds (rk : AesRoundKeys) (ks : List Nat) :
    ∀ t : AesBlock,
      ks.reverse.foldl (fun block i => encrypt_round block (rk.get i) false)
          (inv_sub_bytes (inv_shift_rows
            (ks.foldl (fun block i => decrypt_round block (rk.get i) false) t)))
        = inv_sub_bytes (inv_shift_rows t) := by
  induction ks with
  | nil => intro t; rfl
  | cons i rest ih =>
    intro t
    rw [List.reverse_cons, List.foldl_append, List.foldl_cons, List.foldl_cons, List.foldl_nil,
      ih, encrypt_round_decrypt_round]

/-- Encryption undoes decryption under any schedule of eleven round keys. -/
theorem encrypt_decrypt_round_keys (c : AesBlock) (rk : AesRoundKeys) (d d' : Nat) :
    (process_non_pipelined (process_non_pipelined c rk AesOperation.DECRYPT d).1 rk
      AesOperation.ENCRYPT d').1 = c := by
  simp only [process_non_pipelined, if_true, reduceCtorEq, if_false]
  rw [first_round_xor]
  have h := encrypt_rounds_decrypt_rounds rk (List.range' 1 (AES_NUM_ROUNDS - 1)).reverse
    (c.xor (rk.get AES_NUM_ROUNDS))
  rw [List.reverse_reverse] at h
  rw [h, encrypt_round_final]

/-! ## The key expansion transaction -/

set_option maxRecDepth 100000 in
/-- The offsets that `AesKeyExpansion::b_transport` stores to, whatever the
buffer holds: every offset from `0` to `175`, in ascending order. -/
theorem key_expansion_stored_eq (m : Buffer) :
    (AesKeyExpansion.b_transport m).1.stored = (List.range 176).reverse ++ m.stored := by
  rfl

set_option maxRecDepth 100000 in
/-- The key expansion transaction leaves the sixteen bytes of the key as they
were, whatever lies in memory after them. -/
theorem key_expansion_keeps_key (key : AesKey) (fill : Byte) :
    (AesKeyExpansion.b_transport (Buffer.of_key key fill)).1.key = key := by
  obtain ⟨⟨k0, k1, k2, k3, k4, k5, k6, k7, k8, k9, k10, k11, k12, k13, k14, k15⟩⟩ := key
  rfl

/-- The round keys that `generate_round_keys` leaves are those of `expand_key`. -/
theorem generate_round_keys_eq (key : AesKey) (r : AesRoundKeys) :
    generate_round_keys key r = expand_key key r := by
  rw [generate_round_keys, key_expansion_keeps_key]

set_option maxRecDepth 100000 in
theorem gmul2_eq_gf_mul : ∀ a : Byte, gmul2 a = gf_mul a 2 := by
  decide!

/-! ## Hexadecimal text -/

set_option maxRecDepth 100000 in
/-- Reading back the two digits printed for a byte gives the byte. -/
theorem strtol_hex_byte : ∀ byte : Byte,
    to_uint8 (strtol [hex_char (byte.val / 16), hex_char (byte.val % 16)]) = byte := by
  decide!

set_option maxRecDepth 100000 in
/-- Both digits printed for a byte are lower-case hexadecimal digits. -/
theorem hex_char_lower : ∀ byte : Byte,
    is_lower_hex_digit (hex_char (byte.val / 16)) = true ∧
    is_lower_hex_digit (hex_char (byte.val % 16)) = true := by
  decide!

/-- The stream of `bytes_to_hex` after any text `ss` already in it. -/
theorem foldl_hex_byte (bytes : List Byte) (ss : String) :
    (bytes.foldl (fun ss byte => ss ++ hex_byte byte) ss).data = ss.data ++ hex_chars bytes := by
  induction bytes generalizing ss with
  | nil => simp [hex_chars]
  | cons byte rest ih =>
    rw [List.foldl_cons, ih, String.data_append]
    simp [hex_byte, hex_chars]

theorem bytes_to_hex_data (bytes : List Byte) :
    (bytes_to_hex bytes).data = hex_chars bytes := by
  rw [bytes_to_hex, foldl_hex_byte]
  rfl

theorem hex_to_bytes_loop_hex_chars (bytes : List Byte) :
    hex_to_bytes_loop (hex_chars bytes) = bytes := by
  induction bytes with
  | nil => rfl
  | cons byte rest ih =>
    rw [hex_chars, hex_to_bytes_loop, ih, strtol_hex_byte]

theorem hex_chars_length (bytes : List Byte) :
    (hex_chars bytes).length = 2 * bytes.length := by
  induction bytes with
  | nil => rfl
  | cons byte rest ih => simp [hex_chars, ih]; omega

theorem hex_chars_lower (bytes : List Byte) :
    ∀ c ∈ hex_chars bytes, is_lower_hex_digit c = true := by
  induction bytes with
  | nil => simp [hex_chars]
  | cons byte rest ih =>
    intro c hc
    simp only [hex_chars, List.mem_cons] at hc
    rcases hc with rfl | rfl | hc
    · exact (hex_char_lower byte).1
    · exact (hex_char_lower byte).2
    · exact ih c hc

/-- Method `AesBlock::to_string` prints what `bytes_to_hex` prints for the
sixteen bytes of the block. -/
theorem to_string_eq_bytes_to_hex (b : AesBlock) :
    b.to_string = bytes_to_hex b.to_list := by
  simp only [AesBlock.to_string, bytes_to_hex, AesBlock.to_list, List.foldl_map]

/-! ## 32-bit arithmetic -/

theorem to_int_of_representable (v : Int) (h : representable v) : to_int v = v := by
  unfold representable INT_MIN INT_MAX at h
  unfold to_int
  omega

theorem to_int_representable (v : Int) : representable (to_int v) := by
  unfold representable INT_MIN INT_MAX to_int
  omega

/-! ## The shift register, edge by edge -/

theorem generate_sequence_written :
    written FibonacciGenerator.generate_sequence = [0, 1, 1, 2, 3, 5, 8, 13] := by
  decide

/-! ## The claims -/

/-- C1: for every block `p` and every key `k`, running `process_non_pipelined`
with `DECRYPT` on the block that `process_non_pipelined` with `ENCRYPT` returns
for `p`, both with the round keys `expand_key` leaves for `k`, gives back `p`. -/
theorem decrypt_encrypt_roundtrip (p : AesBlock) (k : AesKey) (r : AesRoundKeys) (d d' : Nat) :
    (process_non_pipelined
        (process_non_pipelined p (expand_key k r) AesOperation.ENCRYPT d).1
        (expand_key k r) AesOperation.DECRYPT d').1 = p :=
  decrypt_encrypt_round_keys p (expand_key k r) d d'

set_option maxRecDepth 100000 in
/-- C2: encrypting plaintext `00112233445566778899aabbccddeeff` under key
`000102030405060708090a0b0c0d0e0f` gives `69c4e0d86a7b0430d8cdb78070b4c55a`
(FIPS-197 Appendix C.1), and every entry of the substitution table is the
FIPS-197 S-box value of its index. -/
theorem encrypt_vector1 :
    (∀ d : Nat,
      (process_non_pipelined vector1_plaintext (expand_key vector1_key AesRoundKeys.default)
        AesOperation.ENCRYPT d).1 = vector1_ciphertext)
      ∧ ∀ x : Byte, IsFips197SBox x (substitute x) := by
  refine ⟨fun d => ?_, substitute_isFips197SBox⟩
  rw [process_non_pipelined_fst]
  decide!

set_option maxRecDepth 100000 in
/-- C3: encrypting plaintext `3243f6a8885a308d313198a2e0370734` under key
`2b7e151628aed2a6abf7158809cf4f3c` gives `3925841d02dc09fbdc118597196a0b32`
(FIPS-197 Appendix B). -/
theorem encrypt_vector3 (d : Nat) :
    (process_non_pipelined vector3_plaintext (expand_key vector3_key AesRoundKeys.default)
      AesOperation.ENCRYPT d).1 = vector3_ciphertext := by
  rw [process_non_pipelined_fst]
  decide!

set_option maxRecDepth 100000 in
/-- C4: decrypting ciphertext `69c4e0d86a7b0430d8cdb78070b4c55a` under key
`000102030405060708090a0b0c0d0e0f` gives `00112233445566778899aabbccddeeff`. -/
theorem decrypt_vector1 (d : Nat) :
    (process_non_pipelined vector1_ciphertext (expand_key vector1_key AesRoundKeys.default)
      AesOperation.DECRYPT d).1 = vector1_plaintext := by
  rw [process_non_pipelined_fst]
  decide!

set_option maxRecDepth 100000 in
/-- C5: decrypting ciphertext `3925841d02dc09fbdc118597196a0b32` under key
`2b7e151628aed2a6abf7158809cf4f3c` gives `3243f6a8885a308d313198a2e0370734`. -/
theorem decrypt_vector3 (d : Nat) :
    (process_non_pipelined vector3_ciphertext (expand_key vector3_key AesRoundKeys.default)
      AesOperation.DECRYPT d).1 = vector3_plaintext := by
  rw [process_non_pipelined_fst]
  decide!

/-- C6: for every block, every set of round keys and both operations,
`process_pipelined` returns the same block as `process_non_pipelined`; and
`b_transport` leaves the same block in the transaction whichever mode the
extension asks for. -/
theorem pipelined_block_eq_non_pipelined :
    (∀ (block : AesBlock) (rk : AesRoundKeys) (op : AesOperation) (d : Nat),
      (process_pipelined block rk op d).1 = (process_non_pipelined block rk op d).1)
      ∧ ∀ (block : AesBlock) (op : AesOperation) (key : AesKey) (st : tlm_response_status)
          (d : Nat),
        (b_transport ⟨block, some ⟨op, AesMode.PIPELINED, key⟩, st⟩ d).1.data
          = (b_transport ⟨block, some ⟨op, AesMode.NON_PIPELINED, key⟩, st⟩ d).1.data :=
  ⟨fun _ _ _ _ => rfl, fun _ _ _ _ _ => rfl⟩

/-- C8: for every block `b`, `inv_mix_columns (mix_columns b) = b`. -/
theorem inv_mix_columns_mix_columns (b : AesBlock) : inv_mix_columns (mix_columns b) = b :=
  inv_mix_columns_mix_columns_eq b

/-- C9: for every block `b`, `inv_shift_rows (shift_rows b) = b`. -/
theorem inv_shift_rows_shift_rows (b : AesBlock) : inv_shift_rows (shift_rows b) = b :=
  inv_shift_rows_shift_rows_eq b

/-- C10: for every byte `x`, `inverse_substitute (substitute x) = x`; `substitute`
is a bijection on the 256 byte values, and each of its values is the FIPS-197
S-box value of its argument. -/
theorem inverse_substitute_substitute :
    (∀ x : Byte, inverse_substitute (substitute x) = x)
      ∧ Function.Bijective substitute
      ∧ ∀ x : Byte, IsFips197SBox x (substitute x) :=
  ⟨inverse_substitute_substitute_eq, substitute_bijective, substitute_isFips197SBox⟩

/-- C11: for every block `b` and every column `i`, column `i` of `mix_columns b`
is the product of the matrix `[[2,3,1,1],[1,2,3,1],[1,1,2,3],[3,1,1,2]]` with
column `i` of `b`, where bytes are multiplied in GF(2^8) modulo
`x^8 + x^4 + x^3 + x + 1` (carry-less product, then reduction) and added by XOR. -/
theorem mix_columns_matrix_product (b : AesBlock) (i : Fin 4) :
    mix_matrix = [[2, 3, 1, 1], [1, 2, 3, 1], [1, 1, 2, 3], [3, 1, 1, 2]]
      ∧ word (mix_columns b) i.val = gf_mat_vec mix_matrix (word b i.val) :=
  ⟨rfl, mix_columns_word b i⟩

/-- C12: for every block `b` and every column `i`, column `i` of
`inv_mix_columns b` is the product of the matrix
`[[14,11,13,9],[9,14,11,13],[13,9,14,11],[11,13,9,14]]` with column `i` of `b`
over GF(2^8); `gmul9`, `gmul11`, `gmul13` and `gmul14` are the field products by
9, 11, 13 and 14. -/
theorem inv_mix_columns_matrix_product (b : AesBlock) (i : Fin 4) :
    inv_mix_matrix = [[14, 11, 13, 9], [9, 14, 11, 13], [13, 9, 14, 11], [11, 13, 9, 14]]
      ∧ word (inv_mix_columns b) i.val = gf_mat_vec inv_mix_matrix (word b i.val)
      ∧ ∀ a : Byte, gmul9 a = gf_mul 9 a ∧ gmul11 a = gf_mul 11 a ∧ gmul13 a = gf_mul 13 a
          ∧ gmul14 a = gf_mul 14 a :=
  ⟨rfl, inv_mix_columns_word b i, fun a =>
    ⟨(gf_mul_inverse a).1.symm, (gf_mul_inverse a).2.1.symm, (gf_mul_inverse a).2.2.1.symm,
      (gf_mul_inverse a).2.2.2.symm⟩⟩

/-- C13: for every block `b`, row `r` and column `c`, cell `r + 4c` of
`shift_rows b` is cell `r + 4((c + r) mod 4)` of `b`: row `r` is rotated left by
`r` positions, and row 0 is unchanged. -/
theorem shift_rows_rotates_left (b : AesBlock) (r c : Fin 4) :
    (shift_rows b).get (r.val + 4 * c.val) = b.get (r.val + 4 * ((c.val + r.val) % 4))
      ∧ (shift_rows b).get (4 * c.val) = b.get (4 * c.val) := by
  refine ⟨shift_rows_get b r.val c.val r.isLt c.isLt, ?_⟩
  have h := shift_rows_get b 0 c.val (by decide) c.isLt
  simpa [Nat.mod_eq_of_lt c.isLt] using h

/-- C14: for every block `b`, row `r` and column `c`, cell `r + 4((c + r) mod 4)`
of `inv_shift_rows b` is cell `r + 4c` of `b`: row `r` is rotated right by `r`
positions. -/
theorem inv_shift_rows_rotates_right (b : AesBlock) (r c : Fin 4) :
    (inv_shift_rows b).get (r.val + 4 * ((c.val + r.val) % 4)) = b.get (r.val + 4 * c.val) :=
  inv_shift_rows_get b r.val c.val r.isLt c.isLt

/-- C15: for every key `k`, round key 0 that `expand_key` leaves is `k`, byte for
byte, whatever the array held before. -/
theorem expand_key_round_key_zero (key : AesKey) (r : AesRoundKeys) :
    (expand_key key r).get 0 = key.key := by
  rw [expand_key_eq]
  rfl

/-- C16: for every key and every round `i` in `1..10`, the first word of
`round_keys[i]` is the first word of `round_keys[i-1]` XOR `t`, where `t` is the
last word of `round_keys[i-1]` rotated left by one byte, passed through the
forward S-box, its first byte then XORed with `rcon[i-1]`. -/
theorem expand_key_first_word (key : AesKey) (r : AesRoundKeys) (i : Nat)
    (h1 : 1 ≤ i) (h10 : i ≤ 10) :
    rcon = [0x01, 0x02, 0x04, 0x08, 0x10, 0x20, 0x40, 0x80, 0x1B, 0x36]
      ∧ word ((expand_key key r).get i) 0
        = xor_word (word ((expand_key key r).get (i - 1)) 0)
            (xor_first (sub_word (rot_word (word ((expand_key key r).get (i - 1)) 3)))
              (rcon.getD (i - 1) 0)) := by
  refine ⟨rfl, ?_⟩
  obtain ⟨j, rfl⟩ : ∃ j, i = j + 1 := ⟨i - 1, by omega⟩
  rw [expand_key_get key r (j + 1) h10, Nat.add_sub_cancel,
    expand_key_get key r j (by omega)]
  exact (next_round_key_words (round_key key j) (j + 1)).1

/-- C16, at the key of FIPS-197 Appendix B and round 1. -/
theorem expand_key_first_word_witness :
    1 ≤ 1 ∧ 1 ≤ 10
      ∧ rcon = [0x01, 0x02, 0x04, 0x08, 0x10, 0x20, 0x40, 0x80, 0x1B, 0x36]
      ∧ word ((expand_key vector3_key AesRoundKeys.default).get 1) 0
        = xor_word (word ((expand_key vector3_key AesRoundKeys.default).get (1 - 1)) 0)
            (xor_first
              (sub_word (rot_word
                (word ((expand_key vector3_key AesRoundKeys.default).get (1 - 1)) 3)))
              (rcon.getD (1 - 1) 0)) :=
  ⟨by decide, by decide,
    expand_key_first_word vector3_key AesRoundKeys.default 1 (by decide) (by decide)⟩

/-- C17: for every key, every round `i` in `1..10` and every word position `j` in
`1..3`, word `j` of `round_keys[i]` is word `j` of `round_keys[i-1]` XOR word
`j-1` of `round_keys[i]`. -/
theorem expand_key_later_words (key : AesKey) (r : AesRoundKeys) (i j : Nat)
    (hi1 : 1 ≤ i) (hi10 : i ≤ 10) (hj1 : 1 ≤ j) (hj3 : j ≤ 3) :
    word ((expand_key key r).get i) j
      = xor_word (word ((expand_key key r).get (i - 1)) j)
          (word ((expand_key key r).get i) (j - 1)) := by
  obtain ⟨n, rfl⟩ : ∃ n, i = n + 1 := ⟨i - 1, by omega⟩
  rw [expand_key_get key r (n + 1) hi10, Nat.add_sub_cancel,
    expand_key_get key r n (by omega)]
  have h := next_round_key_words (round_key key n) (n + 1)
  interval_cases j
  · exact h.2.1
  · exact h.2.2.1
  · exact h.2.2.2

/-- C17, at the key of FIPS-197 Appendix B, round 10 and word 3. -/
theorem expand_key_later_words_witness :
    1 ≤ 10 ∧ 10 ≤ 10 ∧ 1 ≤ 3 ∧ 3 ≤ 3
      ∧ word ((expand_key vector3_key AesRoundKeys.default).get 10) 3
        = xor_word (word ((expand_key vector3_key AesRoundKeys.default).get (10 - 1)) 3)
            (word ((expand_key vector3_key AesRoundKeys.default).get 10) (3 - 1)) :=
  ⟨by decide, by decide, by decide, by decide,
    expand_key_later_words vector3_key AesRoundKeys.default 10 3 (by decide) (by decide)
      (by decide) (by decide)⟩

/-- C18: for every key `k` and any two initial contents of the output array, the
eleven round keys that `expand_key` leaves are the same: every round key is
overwritten and depends on `k` alone. -/
theorem expand_key_deterministic (key : AesKey) (r1 r2 : AesRoundKeys) :
    expand_key key r1 = expand_key key r2 := by
  rw [expand_key_eq key r1, expand_key_eq key r2]

/-- C19: `encrypt_round b rk false` is `mix_columns (shift_rows (sub_bytes b))` XOR
`rk`, and `encrypt_round b rk true` is `shift_rows (sub_bytes b)` XOR `rk`. -/
theorem encrypt_round_steps (b rk : AesBlock) :
    encrypt_round b rk false = (mix_columns (shift_rows (sub_bytes b))).xor rk
      ∧ encrypt_round b rk true = (shift_rows (sub_bytes b)).xor rk :=
  ⟨rfl, rfl⟩

/-- C20: `decrypt_round b rk false` is
`inv_mix_columns (inv_sub_bytes (inv_shift_rows b) XOR rk)`, and
`decrypt_round b rk true` is `inv_sub_bytes (inv_shift_rows b)` XOR `rk`. -/
theorem decrypt_round_steps (b rk : AesBlock) :
    decrypt_round b rk false = inv_mix_columns ((inv_sub_bytes (inv_shift_rows b)).xor rk)
      ∧ decrypt_round b rk true = (inv_sub_bytes (inv_shift_rows b)).xor rk :=
  ⟨rfl, rfl⟩

/-- C21: for every block `p` and round-key schedule `rk`, the `ENCRYPT` path of
`process_non_pipelined` returns `encrypt_round s9 rk[10] true`, where
`s0 = p XOR rk[0]` and `s_i = encrypt_round s_(i-1) rk[i] false`: nine non-final
rounds with keys 1..9 in ascending order, then one final round with key 10. -/
theorem encrypt_path_sequence (p : AesBlock) (rk : AesRoundKeys) (d : Nat) :
    (process_non_pipelined p rk AesOperation.ENCRYPT d).1
        = encrypt_round (encrypt_state p rk 9) (rk.get 10) true
      ∧ process_non_pipelined_calls AesOperation.ENCRYPT
        = [RoundCall.add_round_key 0, RoundCall.encrypt_round 1 false,
           RoundCall.encrypt_round 2 false, RoundCall.encrypt_round 3 false,
           RoundCall.encrypt_round 4 false, RoundCall.encrypt_round 5 false,
           RoundCall.encrypt_round 6 false, RoundCall.encrypt_round 7 false,
           RoundCall.encrypt_round 8 false, RoundCall.encrypt_round 9 false,
           RoundCall.encrypt_round 10 true]
      ∧ (process_non_pipelined_calls AesOperation.ENCRYPT).foldl (RoundCall.run rk) p
        = (process_non_pipelined p rk AesOperation.ENCRYPT d).1 :=
  ⟨encrypt_path_eq p rk d, encrypt_calls_eq, calls_run p rk AesOperation.ENCRYPT d⟩

/-- C22: for every block `c` and round-key schedule `rk`, the `DECRYPT` path of
`process_non_pipelined` returns `decrypt_round t1 rk[0] true`, where
`t10 = c XOR rk[10]` and `t_i = decrypt_round t_(i+1) rk[i] false`: nine rounds
with keys 9..1 in descending order, then one round with key 0 that skips
`inv_mix_columns`. -/
theorem decrypt_path_sequence (c : AesBlock) (rk : AesRoundKeys) (d : Nat) :
    (process_non_pipelined c rk AesOperation.DECRYPT d).1
        = decrypt_round (decrypt_state c rk 9) (rk.get 0) true
      ∧ decrypt_round (decrypt_state c rk 9) (rk.get 0) true
        = (inv_sub_bytes (inv_shift_rows (decrypt_state c rk 9))).xor (rk.get 0)
      ∧ process_non_pipelined_calls AesOperation.DECRYPT
        = [RoundCall.add_round_key 10, RoundCall.decrypt_round 9 false,
           RoundCall.decrypt_round 8 false, RoundCall.decrypt_round 7 false,
           RoundCall.decrypt_round 6 false, RoundCall.decrypt_round 5 false,
           RoundCall.decrypt_round 4 false, RoundCall.decrypt_round 3 false,
           RoundCall.decrypt_round 2 false, RoundCall.decrypt_round 1 false,
           RoundCall.decrypt_round 0 true]
      ∧ (process_non_pipelined_calls AesOperation.DECRYPT).foldl (RoundCall.run rk) c
        = (process_non_pipelined c rk AesOperation.DECRYPT d).1 :=
  ⟨decrypt_path_eq c rk d, rfl, decrypt_calls_eq, calls_run c rk AesOperation.DECRYPT d⟩

/-- C23 (as stated, refuted): the first call of `decrypt_round` in the `DECRYPT`
path is made with `round_keys[9]`, not with `round_keys[10]`. -/
theorem first_decrypt_round_uses_key_9 :
    (process_non_pipelined_calls AesOperation.DECRYPT).find? RoundCall.is_decrypt_round
        = some (RoundCall.decrypt_round 9 false)
      ∧ ((process_non_pipelined_calls AesOperation.DECRYPT).find?
          RoundCall.is_decrypt_round).map RoundCall.key_index ≠ some 10 := by
  decide

/-- C23 (amended): in decryption `round_keys[10]` is consumed by the initial
AddRoundKey, before any call of `decrypt_round`; the first call of
`decrypt_round` consumes `round_keys[9]`; and the one call of `decrypt_round` in
which `inv_mix_columns` is skipped is the last, which consumes `round_keys[0]`. -/
theorem decrypt_key_order :
    (process_non_pipelined_calls AesOperation.DECRYPT).head?
        = some (RoundCall.add_round_key 10)
      ∧ (process_non_pipelined_calls AesOperation.DECRYPT).find? RoundCall.is_decrypt_round
        = some (RoundCall.decrypt_round 9 false)
      ∧ (process_non_pipelined_calls AesOperation.DECRYPT).filter
          RoundCall.skips_inv_mix_columns = [RoundCall.decrypt_round 0 true]
      ∧ (process_non_pipelined_calls AesOperation.DECRYPT).getLast?
        = some (RoundCall.decrypt_round 0 true)
      ∧ (∀ (c : AesBlock) (rk : AesRoundKeys) (d : Nat),
          (process_non_pipelined_calls AesOperation.DECRYPT).foldl (RoundCall.run rk) c
            = (process_non_pipelined c rk AesOperation.DECRYPT d).1)
      ∧ (∀ round_index : Nat, is_first_round round_index = true ↔ round_index = 0) :=
  ⟨by decide, by decide, by decide, by decide,
    fun c rk d => calls_run c rk AesOperation.DECRYPT d,
    fun round_index => by simp [is_first_round]⟩

/-- C24: for every byte `a`, `gmul2 a` is `a << 1` truncated to eight bits, XORed
with `0x1B` exactly when bit 7 of `a` is set, and it is the product of `a` and `2`
in GF(2^8) modulo `x^8 + x^4 + x^3 + x + 1`, computed by carry-less
multiplication and reduction. -/
theorem gmul2_is_field_doubling (a : Byte) :
    (gmul2 a).val = (a.val <<< 1 % 2 ^ 8) ^^^ (if a.val.testBit 7 then 0x1B else 0)
      ∧ gmul2 a = gf_mul a 2 ∧ gmul2 a = gf_mul 2 a :=
  ⟨gmul2_val a, gmul2_eq_gf_mul a, (gf_mul_forward a).2.1.symm⟩

/-- C25: for every block `c` and every key `k`, encrypting the decryption of `c`
under `k` with the same key gives back `c`; so for each key encryption is a
bijection on blocks, with decryption as its inverse on both sides. -/
theorem encrypt_decrypt_roundtrip (k : AesKey) (r : AesRoundKeys) (d d' : Nat) :
    (∀ c : AesBlock,
      (process_non_pipelined
          (process_non_pipelined c (expand_key k r) AesOperation.DECRYPT d).1
          (expand_key k r) AesOperation.ENCRYPT d').1 = c)
      ∧ Function.Bijective
          (fun p : AesBlock => (process_non_pipelined p (expand_key k r) AesOperation.ENCRYPT d).1)
      ∧ Function.Bijective
          (fun c : AesBlock =>
            (process_non_pipelined c (expand_key k r) AesOperation.DECRYPT d).1) :=
  ⟨fun c => encrypt_decrypt_round_keys c (expand_key k r) d d',
    ⟨Function.LeftInverse.injective
        (g := fun c => (process_non_pipelined c (expand_key k r) AesOperation.DECRYPT d).1)
        (fun p => decrypt_encrypt_round_keys p (expand_key k r) d d),
      Function.RightInverse.surjective
        (g := fun c => (process_non_pipelined c (expand_key k r) AesOperation.DECRYPT d).1)
        (fun c => encrypt_decrypt_round_keys c (expand_key k r) d d)⟩,
    ⟨Function.LeftInverse.injective
        (g := fun p => (process_non_pipelined p (expand_key k r) AesOperation.ENCRYPT d).1)
        (fun c => encrypt_decrypt_round_keys c (expand_key k r) d d),
      Function.RightInverse.surjective
        (g := fun p => (process_non_pipelined p (expand_key k r) AesOperation.ENCRYPT d).1)
        (fun p => decrypt_encrypt_round_keys p (expand_key k r) d d)⟩⟩

set_option maxRecDepth 100000 in
/-- C26: `expand_key` on key `2b7e151628aed2a6abf7158809cf4f3c` leaves round key 1
`a0fafe1788542cb123a339392a6c7605` and round key 10
`d014f9a8c9ee2589e13f0cc8b6630ca6` (FIPS-197 Appendix A.1), whatever the array
held before. -/
theorem expand_key_appendix_a1 (r : AesRoundKeys) :
    (expand_key vector3_key r).get 1
        = ⟨0xa0, 0xfa, 0xfe, 0x17, 0x88, 0x54, 0x2c, 0xb1, 0x23, 0xa3, 0x39, 0x39, 0x2a, 0x6c,
           0x76, 0x05⟩
      ∧ (expand_key vector3_key r).get 10
        = ⟨0xd0, 0x14, 0xf9, 0xa8, 0xc9, 0xee, 0x25, 0x89, 0xe1, 0x3f, 0x0c, 0xc8, 0xb6, 0x63,
           0x0c, 0xa6⟩ := by
  rw [expand_key_get vector3_key r 1 (by decide), expand_key_get vector3_key r 10 (by decide)]
  decide!

set_option maxRecDepth 100000 in
/-- C27 (the code at the failing input): on the transaction that
`generate_round_keys` builds for the key of FIPS-197 Appendix B, declared
sixteen bytes long, `AesKeyExpansion::b_transport` stores to offsets 16 and 175,
and the bytes at offsets 16..19, zero before the call, hold the first word of
round key 1 after it; for every buffer the stores cover offsets 0 to 175. -/
theorem key_expansion_writes_past_key :
    key_transaction_data_length = 16
      ∧ 16 ∈ (AesKeyExpansion.b_transport (Buffer.of_key vector3_key 0)).1.stored
      ∧ 175 ∈ (AesKeyExpansion.b_transport (Buffer.of_key vector3_key 0)).1.stored
      ∧ (List.range' 16 4).map (Buffer.of_key vector3_key 0).bytes = [0, 0, 0, 0]
      ∧ (List.range' 16 4).map
          (AesKeyExpansion.b_transport (Buffer.of_key vector3_key 0)).1.bytes
        = [0xa0, 0xfa, 0xfe, 0x17]
      ∧ ∀ m : Buffer,
          (AesKeyExpansion.b_transport m).1.stored = (List.range 176).reverse ++ m.stored := by
  refine ⟨rfl, ?_, ?_, by decide, by decide!, key_expansion_stored_eq⟩
  · rw [key_expansion_stored_eq]
    decide
  · rw [key_expansion_stored_eq]
    decide

/-- C28: for every block `b`, `mix_columns (inv_mix_columns b) = b`. -/
theorem mix_columns_inv_mix_columns (b : AesBlock) : mix_columns (inv_mix_columns b) = b :=
  mix_columns_inv_mix_columns_eq b

/-- C29: for every block `b`, `shift_rows (inv_shift_rows b) = b`; the two row
permutations are inverse to each other in both orders. -/
theorem shift_rows_inv_shift_rows (b : AesBlock) :
    shift_rows (inv_shift_rows b) = b ∧ inv_shift_rows (shift_rows b) = b :=
  ⟨shift_rows_inv_shift_rows_eq b, inv_shift_rows_shift_rows_eq b⟩

/-- C30: `AesTop::b_transport` sets the response status to
`TLM_GENERIC_ERROR_RESPONSE` exactly when the transaction carries no
`AesExtension`, and then leaves the data block and the delay unchanged. -/
theorem b_transport_error_iff_no_extension :
    (∀ (trans : tlm_generic_payload) (delay : Nat),
      (b_transport trans delay).1.response_status
          = tlm_response_status.TLM_GENERIC_ERROR_RESPONSE
        ↔ trans.extension = none)
      ∧ ∀ (data : AesBlock) (st : tlm_response_status) (delay : Nat),
          b_transport ⟨data, none, st⟩ delay
            = (⟨data, none, tlm_response_status.TLM_GENERIC_ERROR_RESPONSE⟩, delay) := by
  refine ⟨fun trans delay => ?_, fun _ _ _ => rfl⟩
  obtain ⟨data, ext, st⟩ := trans
  cases ext with
  | none => exact ⟨fun _ => rfl, fun _ => rfl⟩
  | some e =>
    constructor
    · intro h
      simp [b_transport] at h
    · intro h
      cases h

/-- C31: for every vector of bytes `v`, `hex_to_bytes (bytes_to_hex v) = v`.
`bytes_to_hex` prints two characters for each byte, every one a lower-case
hexadecimal digit, and `hex_to_bytes` reads them back pair by pair; the same
holds for the text of `AesBlock::to_string`, which reads back as the sixteen
bytes of the block. -/
theorem hex_to_bytes_bytes_to_hex (v : List Byte) :
    hex_to_bytes (bytes_to_hex v) = v ∧
    (bytes_to_hex v).length = 2 * v.length ∧
    (∀ c ∈ (bytes_to_hex v).toList, is_lower_hex_digit c = true) ∧
    (∀ b : AesBlock, hex_to_bytes b.to_string = b.to_list) := by
  refine ⟨?_, ?_, ?_, ?_⟩
  · rw [hex_to_bytes, String.toList, bytes_to_hex_data, hex_to_bytes_loop_hex_chars]
  · rw [String.length, bytes_to_hex_data, hex_chars_length]
  · rw [String.toList, bytes_to_hex_data]
    exact hex_chars_lower v
  · intro b
    rw [to_string_eq_bytes_to_hex, hex_to_bytes, String.toList, bytes_to_hex_data,
      hex_to_bytes_loop_hex_chars]

/-- C33: for operands `a` and `b` that are 32-bit `int` values, `ALU::compute`
writes `a + b` for opcode 0, `a - b` for opcode 1 and `a * b` for opcode 2
whenever that exact result is a 32-bit `int` value, and `a` for opcode 3,
whatever `b` is; the value written is always a 32-bit `int` value. -/
theorem alu_compute_exact (a b : Int) (h : representable a ∧ representable b) :
    (representable (a + b) → ALU.compute a b 0 = a + b) ∧
    (representable (a - b) → ALU.compute a b 1 = a - b) ∧
    (representable (a * b) → ALU.compute a b 2 = a * b) ∧
    ALU.compute a b 3 = a ∧
    (∀ b2 : Int, ALU.compute a b2 3 = ALU.compute a b 3) ∧
    (∀ opcode : Fin 4, representable (ALU.compute a b opcode)) := by
  refine ⟨to_int_of_representable _, to_int_of_representable _, to_int_of_representable _,
    rfl, fun _ => rfl, fun opcode => ?_⟩
  fin_cases opcode
  · exact to_int_representable _
  · exact to_int_representable _
  · exact to_int_representable _
  · exact h.1

/-- The operands `10` and `5` of `sc_main`: the four results are `15`, `5`, `50`
and `10`. -/
theorem alu_compute_exact_witness :
    (representable 10 ∧ representable 5) ∧
    ALU.compute 10 5 0 = 15 ∧ ALU.compute 10 5 1 = 5 ∧ ALU.compute 10 5 2 = 50 ∧
    ALU.compute 10 5 3 = 10 :=
  have h := alu_compute_exact 10 5 (by decide)
  ⟨by decide, h.1 (by decide), h.2.1 (by decide), h.2.2.1 (by decide), h.2.2.2.1⟩

/-- C34: `FibonacciGenerator::generate_sequence` writes exactly eight values to
`fib_out`, in the order `0, 1, 1, 2, 3, 5, 8, 13`: the first eight Fibonacci
numbers, each from the third on the sum of the two written before it.  Its
seven waits add up to 21 ns. -/
theorem generate_sequence_writes :
    written FibonacciGenerator.generate_sequence = [0, 1, 1, 2, 3, 5, 8, 13] ∧
    (written FibonacciGenerator.generate_sequence).length = 8 ∧
    written FibonacciGenerator.generate_sequence =
      (List.range 8).map (fun n => (Nat.fib n : Int)) ∧
    (∀ i : Fin 6,
      (written FibonacciGenerator.generate_sequence).getD (i.val + 2) 0 =
        (written FibonacciGenerator.generate_sequence).getD i.val 0 +
        (written FibonacciGenerator.generate_sequence).getD (i.val + 1) 0) ∧
    waited FibonacciGenerator.generate_sequence = 21 := by
  refine ⟨generate_sequence_written, ?_, ?_, ?_, ?_⟩
  · rw [generate_sequence_written]; rfl
  · rw [generate_sequence_written]; simp [List.range, List.range.loop, Nat.fib_add_two]
  · rw [generate_sequence_written]; decide
  · decide

end Aes
